import Mathlib

/-!
# dvdoll: the session controller of `main.go`

A shallow embedding of `src/main.go` (an interactive ffmpeg DVD remuxer).

* Go strings are modelled as Lean `String`s, read as sequences of runes
  (well-formed UTF-8 is assumed).  The library functions of package
  `strings` are written over `String.data`.
* Go `int` values are modelled as `Int`.  The program performs no arithmetic
  on them; they come from `flag.IntVar` or `fmt.Sscanf`, both of which reject
  values outside the 64-bit range, and the range check of `Sscanf` is modelled.
* The outside world (standard input, the terminal, `exec.LookPath`, the
  `ffprobe` / `ffmpeg` subprocesses, `filepath.Clean`, the non-ASCII part of
  the Unicode lower-case table) is an explicit environment `Env` together
  with an explicit `World` state; every observable action is appended to
  `World.trace`.
* `fatal` (print, then `os.Exit(1)`) and `return` from `main` are outcomes of
  the result type `Res`, so that nothing can run after them.
* Standard input is the list of what the successive `ReadString` calls
  return (every `prompt` makes its own reader); the bytes read in raw mode
  by `promptContinue` are a second list.
* The body of the loop of `main` is cut into consecutive stages, each the
  embedding of a range of lines; `iteration` is their sequence.
-/

namespace Dvdoll

/-! ## Package `unicode` / `strings` -/

/-- Go `unicode.IsSpace`: the Latin-1 spaces and the `White_Space` table. -/
def unicode.IsSpace (c : Char) : Bool :=
  let n := c.toNat
  (9 ≤ n && n ≤ 13) || n == 32 || n == 0x85 || n == 0xA0 || n == 0x1680 ||
  (0x2000 ≤ n && n ≤ 0x200a) || n == 0x2028 || n == 0x2029 || n == 0x202f ||
  n == 0x205f || n == 0x3000

/-- Go `unicode.ToLower`: the ASCII branch is in the library source
(`'A' <= r && r <= 'Z'` adds `'a' - 'A'`); the table used for the other runes
is the parameter `ext`. -/
def unicode.ToLower (ext : Char → Char) (c : Char) : Char :=
  if c.toNat < 128 then c.toLower else ext c

/-- Go `strings.ToLower`: `unicode.ToLower` mapped over the runes. -/
def strings.ToLower (ext : Char → Char) (s : String) : String :=
  ⟨s.data.map (unicode.ToLower ext)⟩

/-- Go `strings.TrimSpace`: drop leading and trailing white space. -/
def strings.TrimSpace (s : String) : String :=
  ⟨((s.data.dropWhile unicode.IsSpace).reverse.dropWhile unicode.IsSpace).reverse⟩

/-- Go `strings.Trim s cutset` for a one-rune cutset. -/
def strings.Trim (s : String) (cut : Char) : String :=
  ⟨((s.data.dropWhile (· == cut)).reverse.dropWhile (· == cut)).reverse⟩

/-- Tells whether `sub` occurs in `l` as a contiguous block. -/
def containsList (sub : List Char) : List Char → Bool
  | [] => sub.isEmpty
  | c :: t => sub.isPrefixOf (c :: t) || containsList sub t

/-- Go `strings.Contains`. -/
def strings.Contains (s sub : String) : Bool :=
  containsList sub.data s.data

/-- Go `strings.HasSuffix`. -/
def strings.HasSuffix (s suffix : String) : Bool :=
  suffix.data.reverse.isPrefixOf s.data.reverse

/-- Go `strings.EqualFold s "N/A"`.  The simple-folding orbits of `N`, `/`
and `A` contain ASCII runes only, so for this literal the comparison is the
ASCII case-insensitive one. -/
def strings.EqualFold_NA (s : String) : Bool :=
  s.data.map Char.toLower == "n/a".data

/-! ## Package `fmt` -/

/-- Go `fmt.Sprintf("%d", n)`. -/
def fmt.Sprintf_d (n : Int) : String := toString n

/-- Go `fmt.Sprintf("%02d", n)`: width two, padded with zeros. -/
def fmt.Sprintf_02d (n : Int) : String :=
  if 0 ≤ n ∧ n < 10 then "0" ++ toString n else toString n

/-- Go `(*ss).SkipSpace` as used by `Sscanf` (`nlIsSpace` is false): a `\r\n`
pair is skipped into the newline, a newline is the error "unexpected newline"
(`none`), other spaces are skipped. -/
def fmt.SkipSpace : List Char → Option (List Char)
  | [] => some []
  | c :: rest =>
    if c = '\r' ∧ rest.head? = some '\n' then fmt.SkipSpace rest
    else if c = '\n' then none
    else if unicode.IsSpace c then fmt.SkipSpace rest
    else some (c :: rest)

/-- The digit set of verb `%d`: `(*ss).getBase` gives `decimalDigits`, that is
`"0123456789"` (the underscore belongs to verb `%v` only). -/
def fmt.isScanDigit (c : Char) : Bool := c.isDigit

/-- Value of a run of decimal digits, most significant first. -/
def strconv.digitsValue (ds : List Char) : Nat :=
  ds.foldl (fun acc c => 10 * acc + (c.toNat - 48)) 0

/-- Go `strconv.ParseInt(tok, 10, 64)` on a token made of an optional sign
and a run of runes: `none` for a syntax error (an empty run, or a rune that
is not a decimal digit) and for a value outside the 64-bit range. -/
def strconv.ParseInt (neg : Bool) (run : List Char) : Option Int :=
  if run = [] ∨ ¬ run.all Char.isDigit then none
  else
    let v := strconv.digitsValue run
    if neg then (if v ≤ 2 ^ 63 then some (-(v : Int)) else none)
    else (if v < 2 ^ 63 then some (v : Int) else none)

/-- Go `(*ss).scanInt` for verb `%d` after `SkipSpace`: `notEOF`, an optional
sign, then `scanNumber` (at least one rune of the digit set, then all that
follow), then `strconv.ParseInt`.  The scan stops at the first rune that is
not a decimal digit; what follows stays unread and is no error. -/
def fmt.scanInt : List Char → Option Int
  | [] => none
  | c :: rest =>
    if c = '+' ∨ c = '-' then
      strconv.ParseInt (c == '-') (rest.takeWhile fmt.isScanDigit)
    else
      strconv.ParseInt false ((c :: rest).takeWhile fmt.isScanDigit)

/-- Go `fmt.Sscanf(str, "%d", &x)` with the returned error discarded, as
every call in `main` does: the new value of `x`.  On any scan error `x` keeps
its old value.  (The `1 << 30` rune limit of one operand is not modelled.) -/
def fmt.Sscanf_d (str : String) (x : Int) : Int :=
  match fmt.SkipSpace str.data with
  | none => x
  | some rs => (fmt.scanInt rs).getD x

/-! ## Pure functions of `main.go` -/

/-- Lines 286-292 of main.go. -/
def normalizeStartTime (ext : Char → Char) (input : String) : String :=
  let i := strings.TrimSpace (strings.ToLower ext input)
  if i = "" ∨ i = "0" ∨ i = "first" ∨ i = "start" then "00:00:00" else input

/-- Lines 294-300 of main.go. -/
def normalizeEndTime (ext : Char → Char) (input : String) : String :=
  let i := strings.TrimSpace (strings.ToLower ext input)
  if i = "" ∨ i = "last" ∨ i = "end" then "" else input

/-! ## The outside world -/

/-- The `options` struct, lines 24-34 of main.go. -/
structure options where
  inputPath : String
  title : Int
  chapterStart : String
  chapterEnd : Int
  startTime : String
  endTime : String
  outputFile : String
  listOnly : Bool
  nonInteractive : Bool
deriving DecidableEq

/-- The zero value of `options`. -/
def options.zero : options :=
  { inputPath := "", title := 0, chapterStart := "", chapterEnd := 0, startTime := "",
    endTime := "", outputFile := "", listOnly := false, nonInteractive := false }

/-- One observable action of the process. -/
inductive Event where
  /-- Text written to standard output. -/
  | stdout (text : String)
  /-- One `ReadString` on standard input and what it returned. -/
  | readLine (value : String)
  /-- One read of a single byte from the raw terminal (`none`: read error). -/
  | readKey (byte : Option Nat)
  /-- One subprocess started with `exec.Command(name, args...)`. -/
  | exec (name : String) (args : List String)
  /-- The call `os.Exit(code)`. -/
  | osExit (code : Nat)
deriving DecidableEq

/-- The mutable part of the outside world. -/
structure World where
  /-- What the coming `ReadString` calls on standard input return, in order;
  when exhausted a read returns the empty string (end of file). -/
  stdin : List String
  /-- The bytes the coming raw single-byte reads return; when exhausted the
  read fails. -/
  keys : List Nat
  /-- Every action performed so far, oldest first. -/
  trace : List Event
deriving DecidableEq

/-- The fixed part of the outside world.  Subprocess results may depend on
everything that happened before (the trace), so that the same command may
give different results at different times. -/
structure Env where
  /-- The table behind `unicode.ToLower` for non-ASCII runes. -/
  lowerExt : Char → Char
  /-- Go `filepath.Clean`. -/
  clean : String → String
  /-- Whether `exec.LookPath name` succeeds. -/
  lookPath : String → Bool
  /-- Whether `term.MakeRaw` succeeds. -/
  makeRaw : List Event → Bool
  /-- The result of `cmd.Output()`: the captured output, or the error text. -/
  capture : List Event → String → List String → Except String String
  /-- The result of `cmd.Run()`: `none` on success, else the error text. -/
  run : List Event → String → List String → Option String

/-- How a computation inside `main` ends. -/
inductive Res (α : Type) where
  /-- It went on with a value. -/
  | ok (a : α) (w : World)
  /-- The process ended in `fatal(msg)`. -/
  | fatal (msg : String) (w : World)
  /-- The function `main` returned. -/
  | done (w : World)
deriving DecidableEq

/-- Computations of `main`: world-passing with early termination. -/
def M (α : Type) : Type := World → Res α

/-- Sequencing: the continuation runs only after an `ok` outcome. -/
def M.bind {α β : Type} (x : M α) (f : α → M β) : M β := fun w =>
  match x w with
  | .ok a w1 => f a w1
  | .fatal msg w1 => .fatal msg w1
  | .done w1 => .done w1

instance : Monad M where
  pure a := fun w => .ok a w
  bind := M.bind

/-- Append one event to the trace. -/
def emit (e : Event) : M Unit := fun w => .ok () { w with trace := w.trace ++ [e] }

/-- A `return` statement of `main`. -/
def returnMain {α : Type} : M α := fun w => .done w

/-- Line 17 of main.go. -/
def colorRed : String := "\x1b[91m"

/-- Line 18 of main.go. -/
def colorYellow : String := "\x1b[93m"

/-- Line 19 of main.go. -/
def colorCyan : String := "\x1b[96m"

/-- Line 20 of main.go. -/
def colorGray : String := "\x1b[90m"

/-- Line 21 of main.go. -/
def colorReset : String := "\x1b[0m"

/-- Go `fmt.Println(s)` (and `fmt.Printf`, `fmt.Print` of an already
formatted text). -/
def println (s : String) : M Unit := emit (.stdout (s ++ "\n"))

/-- Lines 378-381 of main.go: print the message and leave with status 1. -/
def fatal {α : Type} (message : String) : M α := fun w =>
  .fatal message { w with trace := w.trace ++
    [.stdout (colorRed ++ "ERROR:" ++ colorReset ++ " " ++ message ++ "\n"), .osExit 1] }

/-- One `reader.ReadString('\n')` on standard input. -/
def readString : M String := fun w =>
  match w.stdin with
  | [] => .ok "" { w with trace := w.trace ++ [.readLine ""] }
  | l :: rest => .ok l { w with stdin := rest, trace := w.trace ++ [.readLine l] }

/-- Lines 302-310 of main.go. -/
def prompt (label : String) (nonInteractive : Bool) : M String :=
  if nonInteractive then pure ""
  else do
    emit (.stdout (colorCyan ++ label ++ ": " ++ colorReset))
    let value ← readString
    pure (strings.TrimSpace value)

/-- Lines 354-359 of main.go: `none` when the executable is found. -/
def ensureExecutable (env : Env) (name : String) : Option String :=
  if env.lookPath name then none else some (name ++ " not found in PATH")

/-- Lines 361-367 of main.go. -/
def runCommand (env : Env) (name : String) (args : List String) : M (Option String) := fun w =>
  .ok (env.run w.trace name args) { w with trace := w.trace ++ [.exec name args] }

/-- Lines 369-376 of main.go. -/
def runCommandCapture (env : Env) (name : String) (args : List String) :
    M (Except String String) := fun w =>
  .ok (env.capture w.trace name args) { w with trace := w.trace ++ [.exec name args] }

/-- Lines 345-347 of main.go. -/
def clearScreen : M Unit := emit (.stdout "\x1b[2J\x1b[H")

/-- Lines 349-352 of main.go. -/
def printHeader : M Unit := do
  println (colorRed ++ "DVDoll - FFmpeg DVD remuxer" ++ colorReset)
  println ""

/-- One `os.Stdin.Read` of a single byte in raw mode. -/
def readKey : M (Option Nat) := fun w =>
  match w.keys with
  | [] => .ok none { w with trace := w.trace ++ [.readKey none] }
  | b :: rest => .ok (some b) { w with keys := rest, trace := w.trace ++ [.readKey (some b)] }

/-- Lines 312-343 of main.go. -/
def promptContinue (env : Env) (nonInteractive : Bool) : M Bool :=
  if nonInteractive then pure false
  else do
    println (colorGray ++ "Press " ++ colorCyan ++ "Enter" ++ colorGray ++
      " to process another file" ++ colorReset)
    println (colorGray ++ "Press " ++ colorRed ++ "ESC" ++ colorGray ++ " to close" ++ colorReset)
    fun w =>
      if env.makeRaw w.trace then
        (do
          let b ← readKey
          match b with
          | none => pure false
          | some b => if b = 27 then pure false else pure true) w
      else
        (do
          let s ← prompt "(press Enter to continue, type 'esc' to exit)" false
          if strings.ToLower env.lowerExt (strings.TrimSpace s) = "esc" then pure false
          else pure true) w

/-! ## The probes -/

/-- Lines 219-229 of main.go: the local `args` of `getTitleDuration`. -/
def titleDurationArgs (inputPath : String) (title : Int) : List String :=
  ["-v", "error", "-hide_banner", "-f", "dvdvideo", "-preindex", "True",
   "-title", fmt.Sprintf_d title, "-show_entries", "format=duration", "-sexagesimal",
   "-of", "default=noprint_wrappers=1:nokey=1", inputPath]

/-- Lines 218-235 of main.go. -/
def getTitleDuration (env : Env) (inputPath : String) (title : Int) :
    M (Except String String) := do
  let r ← runCommandCapture env "ffprobe" (titleDurationArgs inputPath title)
  match r with
  | .error err => pure (.error err)
  | .ok out => pure (.ok (strings.TrimSpace out))

/-- Number of pieces of Go `strings.Split(s, "\n")`. -/
def splitCount (cs : List Char) : Nat := cs.count '\n' + 1

/-- Lines 238-248 of main.go: the local `args` of `getChapterCount`. -/
def chapterCountArgs (inputPath : String) (title : Int) : List String :=
  ["-v", "error", "-hide_banner", "-f", "dvdvideo", "-preindex", "True",
   "-title", fmt.Sprintf_d title, "-show_chapters", "-show_entries", "chapter=index",
   "-of", "csv=p=0", inputPath]

/-- Lines 237-258 of main.go: the count and the error, if any. -/
def getChapterCount (env : Env) (inputPath : String) (title : Int) :
    M (Int × Option String) := do
  let r ← runCommandCapture env "ffprobe" (chapterCountArgs inputPath title)
  match r with
  | .error err => pure (0, some err)
  | .ok out =>
    let trimmed := strings.TrimSpace out
    if splitCount trimmed.data = 1 ∧ strings.TrimSpace trimmed = "" then pure (0, none)
    else pure ((splitCount trimmed.data : Int), none)

/-- The loop of lines 198-210 of main.go, with `n` titles left to try: the
final value of `found`. -/
def printTitleListLoop (env : Env) (inputPath : String) : Nat → Int → Bool → M Bool
  | 0, _, found => pure found
  | n + 1, title, found => do
    let r ← getTitleDuration env inputPath title
    match r with
    | .error _ => pure found
    | .ok duration =>
      if duration = "" then pure found
      else do
        let duration := if strings.EqualFold_NA duration then "00:00:00" else duration
        let chapters ← getChapterCount env inputPath title
        emit (.stdout ("  Title " ++ fmt.Sprintf_d title ++ " - Chapters: " ++
          fmt.Sprintf_02d chapters.1 ++ " (" ++ duration ++ ")\n"))
        printTitleListLoop env inputPath n (title + 1) true

/-- Lines 193-216 of main.go. -/
def printTitleList (env : Env) (inputPath : String) : M Unit := do
  println ""
  println (colorYellow ++ "Title list:" ++ colorReset)
  let found ← printTitleListLoop env inputPath 99 1 false
  (if found then pure () else println "  No titles found.")
  println ""

/-- Lines 263-273 of main.go: the local `args` of `detectAudioCodec`. -/
def audioProbeArgs (inputPath : String) (title : Int) : List String :=
  ["-v", "error", "-hide_banner", "-f", "dvdvideo", "-preindex", "True",
   "-title", fmt.Sprintf_d title, "-select_streams", "a:0", "-show_entries",
   "stream=codec_name", "-of", "default=noprint_wrappers=1:nokey=1", inputPath]

/-- Lines 260-284 of main.go. -/
def detectAudioCodec (env : Env) (inputPath : String) (title : Int) :
    M (Except String String) := do
  println ""
  println "Analyzing audio codec..."
  let r ← runCommandCapture env "ffprobe" (audioProbeArgs inputPath title)
  match r with
  | .error err => pure (.error err)
  | .ok out =>
    let codec := strings.TrimSpace out
    if codec = "" then
      pure (.error ("no audio codec detected. " ++
        "Check if ffprobe is in your PATH and the input is valid"))
    else do
      println ("Detected audio codec: " ++ codec)
      pure (.ok codec)

/-! ## The body of the session loop of `main` -/

/-- The local state of one iteration when the ffmpeg arguments are composed:
`opts`, `useTime` and `chapterStartInt`. -/
structure Session where
  opts : options
  useTime : Bool
  chapterStartInt : Int
deriving DecidableEq

/-- Lines 49-56 of main.go. -/
def inputStage (env : Env) (opts : options) : M options := do
  let opts ← (if opts.inputPath = "" then do
      let v ← prompt "Input" opts.nonInteractive
      pure { opts with inputPath := v }
    else pure opts)
  if opts.inputPath = "" then fatal "Input path is required."
  else pure { opts with inputPath := env.clean (strings.Trim opts.inputPath (Char.ofNat 34)) }

/-- Lines 63-72 of main.go. -/
def titleStage (opts : options) : M options := do
  let opts ← (if opts.title = 0 then do
      let titleStr ← prompt "Title number" opts.nonInteractive
      if titleStr = "" then fatal "Title number is required."
      else pure { opts with title := fmt.Sscanf_d titleStr opts.title }
    else pure opts)
  if opts.title ≤ 0 then fatal "Title number must be greater than zero." else pure opts

/-- Lines 74-79 of main.go. -/
def chapterStartStage (opts : options) : M options :=
  if opts.chapterStart = "" then do
    let v ← prompt "First chapter" opts.nonInteractive
    if v = "" then fatal "First chapter is required."
    else pure { opts with chapterStart := v }
  else pure opts

/-- Line 81 of main.go. -/
def useTimeOf (chapterStart : String) : Bool :=
  decide (chapterStart = "0") || strings.Contains chapterStart ":"

/-- Lines 83-95 of main.go: the time branch. -/
def timeStage (env : Env) (opts : options) : M options := do
  let opts ← (if opts.startTime = "" then
      (if opts.chapterStart = "0" then do
        let v ← prompt "Start time (-ss)" opts.nonInteractive
        pure { opts with startTime := v }
      else pure { opts with startTime := opts.chapterStart })
    else pure opts)
  let opts := { opts with startTime := normalizeStartTime env.lowerExt opts.startTime }
  let opts ← (if opts.endTime = "" then do
      let v ← prompt "End time (-to)" opts.nonInteractive
      pure { opts with endTime := v }
    else pure opts)
  pure { opts with endTime := normalizeEndTime env.lowerExt opts.endTime }

/-- Lines 97-110 of main.go: the chapter branch. -/
def chapterStage (opts : options) : M Session :=
  let chapterStartInt := fmt.Sscanf_d opts.chapterStart 0
  if chapterStartInt ≤ 0 then fatal "First chapter must be greater than zero."
  else do
    let opts ← (if opts.chapterEnd = 0 then do
        let chapterEndStr ← prompt "Last chapter" opts.nonInteractive
        if chapterEndStr = "" then fatal "Last chapter is required."
        else pure { opts with chapterEnd := fmt.Sscanf_d chapterEndStr opts.chapterEnd }
      else pure opts)
    if opts.chapterEnd ≤ 0 then fatal "Last chapter must be greater than zero."
    else pure { opts := opts, useTime := false, chapterStartInt := chapterStartInt }

/-- Lines 81-111 of main.go. -/
def rangeStage (env : Env) (opts : options) : M Session :=
  if useTimeOf opts.chapterStart then do
    let opts ← timeStage env opts
    pure { opts := opts, useTime := true, chapterStartInt := 0 }
  else chapterStage opts

/-- Lines 116-121 of main.go: the default name and the extension. -/
def outputName (ext : Char → Char) (f : String) : String :=
  let f := if f = "" then "output" else f
  if strings.HasSuffix (strings.ToLower ext f) ".mkv" then f else f ++ ".mkv"

/-- Lines 113-121 of main.go. -/
def outputStage (env : Env) (opts : options) : M options := do
  let opts ← (if opts.outputFile = "" then do
      let v ← prompt "Output filename" opts.nonInteractive
      pure { opts with outputFile := v }
    else pure opts)
  pure { opts with outputFile := outputName env.lowerExt opts.outputFile }

/-- Lines 49-61 of main.go: the input path, the title list and the
`-list` return. -/
def listStage (env : Env) (opts : options) : M options := do
  let opts ← inputStage env opts
  printTitleList env opts.inputPath
  if opts.listOnly then returnMain else pure opts

/-- Lines 49-72 of main.go. -/
def upToTitle (env : Env) (opts : options) : M options := do
  let opts ← listStage env opts
  titleStage opts

/-- Lines 49-79 of main.go. -/
def upToChapterStart (env : Env) (opts : options) : M options := do
  let opts ← upToTitle env opts
  chapterStartStage opts

/-- Lines 49-111 of main.go. -/
def upToRange (env : Env) (opts : options) : M Session := do
  let opts ← upToChapterStart env opts
  rangeStage env opts

/-- Lines 49-121 of main.go: everything before the audio probe. -/
def gather (env : Env) (opts : options) : M Session := do
  let s ← upToRange env opts
  let opts ← outputStage env s.opts
  pure { s with opts := opts }

/-- Lines 128-131 of main.go. -/
def audioArgs (ext : Char → Char) (audioCodec : String) : List String :=
  if strings.Contains (strings.ToLower ext audioCodec) "pcm" then
    ["-c:a", "flac", "-compression_level:a", "8"]
  else ["-c:a", "copy"]

/-- Lines 134-141 of main.go: the range selection appended to the arguments. -/
def rangeArgs (s : Session) : List String :=
  if s.useTime then
    (if s.opts.endTime ≠ "" then ["-ss", s.opts.startTime] ++ ["-to", s.opts.endTime]
     else ["-ss", s.opts.startTime])
  else
    ["-chapter_start", fmt.Sprintf_d s.chapterStartInt,
     "-chapter_end", fmt.Sprintf_d s.opts.chapterEnd]

/-- Lines 128-144 of main.go: the argument list of the ffmpeg run. -/
def ffmpegArgs (ext : Char → Char) (s : Session) (audioCodec : String) : List String :=
  let args := ["-hide_banner", "-f", "dvdvideo", "-preindex", "True", "-title",
    fmt.Sprintf_d s.opts.title]
  let args := args ++ rangeArgs s
  let args := args ++ ["-i", s.opts.inputPath, "-map", "0", "-c", "copy"]
  let args := args ++ audioArgs ext audioCodec
  args ++ [s.opts.outputFile]

/-- Lines 123-126 of main.go. -/
def audioStage (env : Env) (s : Session) : M String := do
  let r ← detectAudioCodec env s.opts.inputPath s.opts.title
  match r with
  | .error err => fatal err
  | .ok audioCodec => pure audioCodec

/-- Lines 146-151 of main.go. -/
def remuxStage (env : Env) (args : List String) : M Unit := do
  println ""
  println "Remuxing file..."
  let r ← runCommand env "ffmpeg" args
  match r with
  | some err => fatal err
  | none => println "Process finished."

/-- Lines 153-170 of main.go: leave, or the options of the next iteration. -/
def continueStage (env : Env) (opts : options) : M options :=
  if opts.nonInteractive then returnMain
  else do
    let again ← promptContinue env false
    if !again then returnMain
    else do
      clearScreen
      printHeader
      pure { opts with inputPath := "", title := 0, chapterStart := "", chapterEnd := 0,
                       startTime := "", endTime := "", outputFile := "", listOnly := false }

/-- Lines 49-170 of main.go: one iteration of the session loop.  The result
`ok opts` is the options value the next iteration starts with. -/
def iteration (env : Env) (opts : options) : M options := do
  let s ← gather env opts
  let audioCodec ← audioStage env s
  remuxStage env (ffmpegArgs env.lowerExt s audioCodec)
  continueStage env s.opts

/-- The `for` loop of lines 48-171 of main.go, run for at most `fuel`
iterations (`none`: the fuel ran out). -/
def sessionLoop (env : Env) : Nat → options → World → Option (Res Unit)
  | 0, _, _ => none
  | fuel + 1, opts, w =>
    match iteration env opts w with
    | .ok opts1 w1 => sessionLoop env fuel opts1 w1
    | .fatal msg w1 => some (.fatal msg w1)
    | .done w1 => some (.done w1)

/-- Lines 187-190 of main.go: the positional argument stands in for a missing
`-input`.  The parsed flag values are the argument `flags`. -/
def parseFlags (flags : options) (positional : List String) : options :=
  match positional with
  | a :: _ => if flags.inputPath = "" then { flags with inputPath := a } else flags
  | [] => flags

/-- Lines 39-46 of main.go. -/
def startup (env : Env) : M Unit := do
  printHeader
  match ensureExecutable env "ffprobe" with
  | some err => fatal err
  | none =>
    match ensureExecutable env "ffmpeg" with
    | some err => fatal err
    | none => pure ()

/-- Lines 36-172 of main.go, the loop bounded by `fuel`. -/
def main (env : Env) (flags : options) (positional : List String) (fuel : Nat)
    (w : World) : Option (Res Unit) :=
  match startup env w with
  | .ok _ w1 => sessionLoop env fuel (parseFlags flags positional) w1
  | .fatal msg w1 => some (.fatal msg w1)
  | .done w1 => some (.done w1)

/-- Arguments of the ffmpeg runs recorded in a trace, oldest first. -/
def ffmpegRuns : List Event → List (List String)
  | [] => []
  | .exec name args :: rest =>
    if name = "ffmpeg" then args :: ffmpegRuns rest else ffmpegRuns rest
  | _ :: rest => ffmpegRuns rest

/-! ## Vocabulary of the statements -/

/-- The world an outcome ends in. -/
def Res.world {α : Type} : Res α → World
  | .ok _ w => w
  | .fatal _ w => w
  | .done w => w

/-- No ffmpeg run was recorded between the two worlds. -/
def Quiet (w w1 : World) : Prop := ffmpegRuns w1.trace = ffmpegRuns w.trace

/-- What `prompt` returns in a given world. -/
def answer (nonInteractive : Bool) (w : World) : String :=
  if nonInteractive then "" else strings.TrimSpace (w.stdin.headD "")

/-- The world after a `prompt`. -/
def afterPrompt (label : String) (nonInteractive : Bool) (w : World) : World :=
  if nonInteractive then w
  else { w with stdin := w.stdin.tail,
                trace := w.trace ++ [.stdout (colorCyan ++ label ++ ": " ++ colorReset),
                                     .readLine (w.stdin.headD "")] }

/-- A computation that always goes on and runs no ffmpeg. -/
def Calm {α : Type} (x : M α) : Prop :=
  ∀ w, ∃ a w1, x w = .ok a w1 ∧ Quiet w w1

/-- The start time the time branch normalises (lines 84-90 of main.go). -/
def rawStart (opts : options) (w : World) : String :=
  if opts.startTime = "" then
    (if opts.chapterStart = "0" then answer opts.nonInteractive w else opts.chapterStart)
  else opts.startTime

/-- The world after the start-time step of the time branch. -/
def afterStart (opts : options) (w : World) : World :=
  if opts.startTime = "" ∧ opts.chapterStart = "0" then
    afterPrompt "Start time (-ss)" opts.nonInteractive w
  else w

/-- The end time the time branch normalises (lines 92-94 of main.go). -/
def rawEnd (opts : options) (w : World) : String :=
  if opts.endTime = "" then answer opts.nonInteractive (afterStart opts w) else opts.endTime

/-- The world after the time branch. -/
def afterTime (opts : options) (w : World) : World :=
  if opts.endTime = "" then afterPrompt "End time (-to)" opts.nonInteractive (afterStart opts w)
  else afterStart opts w

/-- The output name before normalisation (lines 113-115 of main.go). -/
def rawOutput (opts : options) (w : World) : String :=
  if opts.outputFile = "" then answer opts.nonInteractive w else opts.outputFile

/-- The world after the output step. -/
def afterOutput (opts : options) (w : World) : World :=
  if opts.outputFile = "" then afterPrompt "Output filename" opts.nonInteractive w else w

/-- The same outcome with the value changed by `f`. -/
def Res.mapValue {α β : Type} (f : α → β) : Res α → Res β
  | .ok a w => .ok (f a) w
  | .fatal msg w => .fatal msg w
  | .done w => .done w

/-- The options with other start and end times. -/
def options.withTimes (o : options) (st et : String) : options :=
  { o with startTime := st, endTime := et }

/-- The options with another last chapter. -/
def options.withChapterEnd (o : options) (ce : Int) : options :=
  { o with chapterEnd := ce }

/-- The session with other start and end times. -/
def Session.withTimes (s : Session) (st et : String) : Session :=
  { s with opts := s.opts.withTimes st et }

/-- The session with another last chapter. -/
def Session.withChapterEnd (s : Session) (ce : Int) : Session :=
  { s with opts := s.opts.withChapterEnd ce }

/-- The world after some more events. -/
def World.log (w : World) (evs : List Event) : World := { w with trace := w.trace ++ evs }

/-- The events of `printHeader`. -/
def headerEvents : List Event :=
  [.stdout (colorRed ++ "DVDoll - FFmpeg DVD remuxer" ++ colorReset ++ "\n"), .stdout "\n"]

/-- The events of a `fatal(msg)`. -/
def fatalEvents (msg : String) : List Event :=
  [.stdout (colorRed ++ "ERROR:" ++ colorReset ++ " " ++ msg ++ "\n"), .osExit 1]

/-! ## Concrete worlds used to exercise the statements -/

/-- A disc with one title of three chapters and an AC-3 track, on which every
tool succeeds; the duration probe fails past the last title, as ffprobe does. -/
def demoEnv : Env :=
  { lowerExt := id, clean := id, lookPath := fun _ => true, makeRaw := fun _ => true,
    capture := fun _ _ args =>
      if args.contains "format=duration" then
        (if args.contains "1" then .ok "0:42:10.5\n" else .error "exit status 1")
      else if args.contains "chapter=index" then .ok "0\n1\n2\n"
      else .ok "ac3\n",
    run := fun _ _ _ => none }

/-- The same disc when the chapter probe fails as well. -/
def flakyEnv : Env :=
  { demoEnv with
    capture := fun _ _ args =>
      if args.contains "format=duration" then
        (if args.contains "1" then .ok "0:42:10.5\n" else .error "exit status 1")
      else if args.contains "chapter=index" then .error "exit status 1"
      else .ok "ac3\n" }

/-- The same disc when the audio probe fails. -/
def noAudioEnv : Env :=
  { demoEnv with capture := fun _ _ _ => .error "exit status 1" }

/-- The same disc when ffmpeg fails. -/
def noRemuxEnv : Env :=
  { demoEnv with run := fun _ _ _ => some "exit status 1" }

/-- A machine without ffmpeg. -/
def noToolEnv : Env :=
  { demoEnv with lookPath := fun name => name == "ffprobe" }

/-- No input left, nothing done yet. -/
def emptyWorld : World := { stdin := [], keys := [], trace := [] }

/-- All flags given for a chapter range that runs backwards, no prompts. -/
def batchOpts : options :=
  { inputPath := "disc.iso", title := 1, chapterStart := "2", chapterEnd := 1, startTime := "",
    endTime := "", outputFile := "", listOnly := false, nonInteractive := true }

/-- All flags given, prompts allowed. -/
def fullOpts : options :=
  { inputPath := "disc.iso", title := 1, chapterStart := "1", chapterEnd := 3, startTime := "",
    endTime := "", outputFile := "film.mkv", listOnly := false, nonInteractive := false }

/-- The user presses Enter at the continue prompt. -/
def enterWorld : World := { stdin := [], keys := [13], trace := [] }

/-- The session `batchOpts` reaches the composition of the arguments with. -/
def batchSession : Session :=
  { opts := { batchOpts with outputFile := "output.mkv" }, useTime := false,
    chapterStartInt := 2 }

/-- All flags given for a time range, no prompts. -/
def timeOpts : options :=
  { inputPath := "disc.iso", title := 1, chapterStart := "0", chapterEnd := 0,
    startTime := "first", endTime := "0:10:00", outputFile := "", listOnly := false,
    nonInteractive := true }

/-- The session `timeOpts` reaches the composition of the arguments with. -/
def timeSession : Session :=
  { opts := { timeOpts with startTime := "00:00:00", outputFile := "output.mkv" },
    useTime := true, chapterStartInt := 0 }

/-- A time range whose start time spells an option name. -/
def slipOpts : options :=
  { timeOpts with startTime := "-chapter_start", endTime := "" }

/-- A negative title number on the command line. -/
def negTitleOpts : options := { batchOpts with title := -1 }

/-- The user types the path, "3abc" as the title number, chapters 2 to 1, an
empty output name, and presses ESC at the end. -/
def typedWorld : World :=
  { stdin := ["disc.iso\n", "3abc\n", "2\n", "1\n", "\n"], keys := [27], trace := [] }

/-- The options once the path "disc.iso" has been typed. -/
def discOpts : options := { options.zero with inputPath := "disc.iso" }

/-- A time range with neither start nor end nor output name, no prompts. -/
def bareTimeOpts : options := { timeOpts with startTime := "", endTime := "" }

/-- A time range whose start time spells "-to", with no end time. -/
def toSlipOpts : options := { timeOpts with startTime := "-to", endTime := "" }

/-- A time range together with a negative last chapter, no prompts. -/
def negEndOpts : options := { timeOpts with chapterEnd := -5 }

/-- A chapter range whose last chapter is left to the prompt. -/
def zeroEndOpts : options := { fullOpts with chapterEnd := 0 }

/-- The user types "0" as the last chapter. -/
def zeroEndWorld : World := { stdin := ["0\n"], keys := [], trace := [] }

/-- A negative title number on the command line of a `-list` call. -/
def negTitleListOpts : options := { negTitleOpts with listOnly := true }

/-- A time range whose start and end times are left to the prompts. -/
def askTimeOpts : options :=
  { inputPath := "disc.iso", title := 1, chapterStart := "0", chapterEnd := 0, startTime := "",
    endTime := "", outputFile := "film.mkv", listOnly := false, nonInteractive := false }

/-- The user types " Start" and "0:10:00" as the times and presses ESC at the end. -/
def askTimeWorld : World :=
  { stdin := [" Start\n", "0:10:00\n"], keys := [27], trace := [] }

/-- A chapter range whose output filename is left to the prompt. -/
def askNameOpts : options := { fullOpts with outputFile := "" }

/-- The user types "Film" as the output filename and presses ESC at the end. -/
def askNameWorld : World := { stdin := ["Film\n"], keys := [27], trace := [] }

/-! ## Theorems -/

@[simp] theorem bind_apply {α β : Type} (x : M α) (f : α → M β) (w : World) :
    (x >>= f) w = match x w with
      | .ok a w1 => f a w1
      | .fatal msg w1 => .fatal msg w1
      | .done w1 => .done w1 := rfl

@[simp] theorem pure_apply {α : Type} (a : α) (w : World) : (pure a : M α) w = .ok a w := rfl

theorem ffmpegRuns_append (a b : List Event) :
    ffmpegRuns (a ++ b) = ffmpegRuns a ++ ffmpegRuns b := by
  induction a with
  | nil => simp [ffmpegRuns]
  | cons e t ih =>
    cases e <;> simp [ffmpegRuns, ih]
    split <;> simp

theorem Quiet.refl (w : World) : Quiet w w := rfl

theorem Quiet.trans {a b c : World} (h1 : Quiet a b) (h2 : Quiet b c) : Quiet a c := by
  unfold Quiet at *; rw [h2, h1]

theorem prompt_eq (label : String) (ni : Bool) (w : World) :
    prompt label ni w = .ok (answer ni w) (afterPrompt label ni w) := by
  unfold prompt answer afterPrompt
  cases ni
  · cases w with
    | mk stdin keys trace =>
      cases stdin <;> simp [emit, readString]
  · simp

theorem afterPrompt_quiet (label : String) (ni : Bool) (w : World) :
    Quiet w (afterPrompt label ni w) := by
  unfold afterPrompt Quiet
  cases ni <;> simp [ffmpegRuns_append, ffmpegRuns]

theorem println_eq (s : String) (w : World) :
    println s w = .ok () { w with trace := w.trace ++ [.stdout (s ++ "\n")] } := rfl

theorem runCommandCapture_eq (env : Env) (name : String) (args : List String) (w : World) :
    runCommandCapture env name args w =
      .ok (env.capture w.trace name args) { w with trace := w.trace ++ [.exec name args] } := rfl

theorem Calm.pure {α : Type} (a : α) : Calm (pure a : M α) :=
  fun w => ⟨a, w, rfl, rfl⟩

theorem Calm.bind {α β : Type} {x : M α} {f : α → M β} (hx : Calm x) (hf : ∀ a, Calm (f a)) :
    Calm (x >>= f) := by
  intro w
  obtain ⟨a, w1, h1, q1⟩ := hx w
  obtain ⟨b, w2, h2, q2⟩ := hf a w1
  exact ⟨b, w2, by simp [h1, h2], q1.trans q2⟩

theorem Calm.println (s : String) : Calm (println s) :=
  fun w => ⟨(), _, rfl, by simp [Quiet, ffmpegRuns_append, ffmpegRuns]⟩

theorem Calm.emit_stdout (s : String) : Calm (emit (.stdout s)) :=
  fun w => ⟨(), _, rfl, by simp [Quiet, ffmpegRuns_append, ffmpegRuns]⟩

theorem Calm.ffprobe (env : Env) (args : List String) :
    Calm (runCommandCapture env "ffprobe" args) :=
  fun w => ⟨_, _, rfl, by simp [Quiet, ffmpegRuns_append, ffmpegRuns]⟩

theorem Calm.getTitleDuration (env : Env) (ip : String) (t : Int) :
    Calm (getTitleDuration env ip t) := by
  unfold Dvdoll.getTitleDuration
  refine Calm.bind (Calm.ffprobe env _) ?_
  intro r
  cases r <;> exact Calm.pure _

theorem Calm.getChapterCount (env : Env) (ip : String) (t : Int) :
    Calm (getChapterCount env ip t) := by
  unfold Dvdoll.getChapterCount
  refine Calm.bind (Calm.ffprobe env _) ?_
  intro r
  cases r
  · exact Calm.pure _
  · simp only
    split <;> exact Calm.pure _

theorem Calm.printTitleListLoop (env : Env) (ip : String) (n : Nat) :
    ∀ (t : Int) (found : Bool), Calm (printTitleListLoop env ip n t found) := by
  induction n with
  | zero => intro t found; exact Calm.pure _
  | succ n ih =>
    intro t found
    unfold Dvdoll.printTitleListLoop
    refine Calm.bind (Calm.getTitleDuration env ip t) ?_
    intro r
    cases r
    · exact Calm.pure _
    · simp only
      split
      · exact Calm.pure _
      · refine Calm.bind (Calm.getChapterCount env ip t) ?_
        intro c
        refine Calm.bind (Calm.emit_stdout _) ?_
        intro _
        exact ih _ _

theorem Calm.printTitleList (env : Env) (ip : String) : Calm (printTitleList env ip) := by
  unfold Dvdoll.printTitleList
  refine Calm.bind (Calm.println _) fun _ => ?_
  refine Calm.bind (Calm.println _) fun _ => ?_
  refine Calm.bind (Calm.printTitleListLoop env ip 99 1 false) fun found => ?_
  refine Calm.bind ?_ fun _ => Calm.println _
  cases found
  · exact Calm.println _
  · exact Calm.pure _

theorem Calm.prompt (label : String) (ni : Bool) : Calm (prompt label ni) :=
  fun w => ⟨_, _, prompt_eq label ni w, afterPrompt_quiet label ni w⟩

theorem Calm.readKey : Calm readKey := by
  intro w
  unfold Dvdoll.readKey
  split
  · exact ⟨_, _, rfl, by simp [Quiet, ffmpegRuns_append, ffmpegRuns]⟩
  · exact ⟨_, _, rfl, by simp [Quiet, ffmpegRuns_append, ffmpegRuns]⟩

theorem Calm.ite_world {α : Type} (c : World → Bool) {x y : M α} (hx : Calm x) (hy : Calm y) :
    Calm (fun w => if c w then x w else y w) := by
  intro w
  by_cases h : c w
  · simpa [h] using hx w
  · simpa [h] using hy w

theorem Calm.promptContinue (env : Env) : Calm (promptContinue env false) := by
  unfold Dvdoll.promptContinue
  simp only [Bool.false_eq_true, if_false]
  refine Calm.bind (Calm.println _) fun _ => ?_
  refine Calm.bind (Calm.println _) fun _ => ?_
  refine Calm.ite_world (fun w => env.makeRaw w.trace) ?_ ?_
  · refine Calm.bind Calm.readKey fun b => ?_
    cases b
    · exact Calm.pure _
    · simp only
      split_ifs <;> exact Calm.pure _
  · refine Calm.bind (Calm.prompt _ _) fun s => ?_
    split_ifs <;> exact Calm.pure _

theorem Calm.clearScreen : Calm clearScreen := Calm.emit_stdout _

theorem Calm.printHeader : Calm printHeader :=
  Calm.bind (Calm.println _) fun _ => Calm.println _

theorem inputStage_eq (env : Env) (opts : options) (w : World) :
    inputStage env opts w =
      if opts.inputPath = "" then
        (if answer opts.nonInteractive w = "" then
          (fatal "Input path is required." : M options) (afterPrompt "Input" opts.nonInteractive w)
        else .ok { opts with
                     inputPath := env.clean
                       (strings.Trim (answer opts.nonInteractive w) (Char.ofNat 34)) }
          (afterPrompt "Input" opts.nonInteractive w))
      else .ok { opts with inputPath := env.clean (strings.Trim opts.inputPath (Char.ofNat 34)) } w := by
  unfold inputStage
  by_cases h : opts.inputPath = ""
  · by_cases h2 : answer opts.nonInteractive w = "" <;> simp [h, h2, prompt_eq, fatal]
  · simp [h]

theorem titleStage_eq (opts : options) (w : World) :
    titleStage opts w =
      if opts.title = 0 then
        (if answer opts.nonInteractive w = "" then
          (fatal "Title number is required." : M options)
            (afterPrompt "Title number" opts.nonInteractive w)
        else if fmt.Sscanf_d (answer opts.nonInteractive w) 0 ≤ 0 then
          (fatal "Title number must be greater than zero." : M options)
            (afterPrompt "Title number" opts.nonInteractive w)
        else .ok { opts with title := fmt.Sscanf_d (answer opts.nonInteractive w) 0 }
          (afterPrompt "Title number" opts.nonInteractive w))
      else if opts.title ≤ 0 then
        (fatal "Title number must be greater than zero." : M options) w
      else .ok opts w := by
  unfold titleStage
  by_cases h : opts.title = 0
  · by_cases h2 : answer opts.nonInteractive w = ""
    · simp [h, h2, prompt_eq, fatal]
    · by_cases h3 : fmt.Sscanf_d (answer opts.nonInteractive w) 0 ≤ 0 <;>
        simp [h, h2, h3, prompt_eq, fatal]
  · by_cases h3 : opts.title ≤ 0 <;> simp [h, h3]

theorem chapterStartStage_eq (opts : options) (w : World) :
    chapterStartStage opts w =
      if opts.chapterStart = "" then
        (if answer opts.nonInteractive w = "" then
          (fatal "First chapter is required." : M options)
            (afterPrompt "First chapter" opts.nonInteractive w)
        else .ok { opts with chapterStart := answer opts.nonInteractive w }
          (afterPrompt "First chapter" opts.nonInteractive w))
      else .ok opts w := by
  unfold chapterStartStage
  by_cases h : opts.chapterStart = ""
  · by_cases h2 : answer opts.nonInteractive w = "" <;> simp [h, h2, prompt_eq, fatal]
  · simp [h]

theorem timeStage_eq (env : Env) (opts : options) (w : World) :
    timeStage env opts w =
      .ok { opts with startTime := normalizeStartTime env.lowerExt (rawStart opts w),
                      endTime := normalizeEndTime env.lowerExt (rawEnd opts w) }
        (afterTime opts w) := by
  unfold timeStage rawEnd afterTime rawStart afterStart
  by_cases h1 : opts.startTime = "" <;> by_cases h2 : opts.chapterStart = "0" <;>
    by_cases h3 : opts.endTime = "" <;> simp [h1, h2, h3, prompt_eq]

theorem chapterStage_eq (opts : options) (w : World) :
    chapterStage opts w =
      if fmt.Sscanf_d opts.chapterStart 0 ≤ 0 then
        (fatal "First chapter must be greater than zero." : M Session) w
      else if opts.chapterEnd = 0 then
        (if answer opts.nonInteractive w = "" then
          (fatal "Last chapter is required." : M Session)
            (afterPrompt "Last chapter" opts.nonInteractive w)
        else if fmt.Sscanf_d (answer opts.nonInteractive w) 0 ≤ 0 then
          (fatal "Last chapter must be greater than zero." : M Session)
            (afterPrompt "Last chapter" opts.nonInteractive w)
        else .ok { opts := { opts with chapterEnd := fmt.Sscanf_d (answer opts.nonInteractive w) 0 },
                   useTime := false, chapterStartInt := fmt.Sscanf_d opts.chapterStart 0 }
          (afterPrompt "Last chapter" opts.nonInteractive w))
      else if opts.chapterEnd ≤ 0 then
        (fatal "Last chapter must be greater than zero." : M Session) w
      else .ok { opts := opts, useTime := false,
                 chapterStartInt := fmt.Sscanf_d opts.chapterStart 0 } w := by
  unfold chapterStage
  by_cases h0 : fmt.Sscanf_d opts.chapterStart 0 ≤ 0
  · simp [h0]
  · by_cases h : opts.chapterEnd = 0
    · by_cases h2 : answer opts.nonInteractive w = ""
      · simp [h0, h, h2, prompt_eq, fatal]
      · by_cases h3 : fmt.Sscanf_d (answer opts.nonInteractive w) 0 ≤ 0 <;>
          simp [h0, h, h2, h3, prompt_eq, fatal]
    · by_cases h3 : opts.chapterEnd ≤ 0 <;> simp [h0, h, h3]

theorem rangeStage_eq (env : Env) (opts : options) (w : World) :
    rangeStage env opts w =
      if useTimeOf opts.chapterStart then
        .ok { opts := { opts with startTime := normalizeStartTime env.lowerExt (rawStart opts w),
                                  endTime := normalizeEndTime env.lowerExt (rawEnd opts w) },
              useTime := true, chapterStartInt := 0 } (afterTime opts w)
      else chapterStage opts w := by
  unfold rangeStage
  by_cases h : useTimeOf opts.chapterStart <;> simp [h, timeStage_eq]

theorem outputStage_eq (env : Env) (opts : options) (w : World) :
    outputStage env opts w =
      .ok { opts with outputFile := outputName env.lowerExt (rawOutput opts w) }
        (if opts.outputFile = "" then afterPrompt "Output filename" opts.nonInteractive w
         else w) := by
  unfold outputStage rawOutput
  by_cases h : opts.outputFile = "" <;> simp [h, prompt_eq]

theorem quiet_fatal (msg : String) (w : World) :
    Quiet w { w with trace := w.trace ++
      [.stdout (colorRed ++ "ERROR:" ++ colorReset ++ " " ++ msg ++ "\n"), .osExit 1] } := by
  simp [Quiet, ffmpegRuns_append, ffmpegRuns]

/-- Outcomes of the input stage. -/
theorem inputStage_cases (env : Env) (opts : options) (w : World) :
    (∃ ip w1, inputStage env opts w =
        .ok { opts with inputPath := env.clean (strings.Trim ip (Char.ofNat 34)) } w1 ∧
        ip ≠ "" ∧ (opts.inputPath ≠ "" → ip = opts.inputPath) ∧ Quiet w w1) ∨
    (∃ w1, inputStage env opts w = .fatal "Input path is required." w1 ∧
        opts.inputPath = "" ∧ answer opts.nonInteractive w = "" ∧ Quiet w w1) := by
  rw [inputStage_eq]
  split_ifs with h h2
  · right
    exact ⟨_, rfl, h, h2, (afterPrompt_quiet _ _ _).trans (quiet_fatal _ _)⟩
  · left
    exact ⟨_, _, rfl, h2, fun hne => absurd h hne, afterPrompt_quiet _ _ _⟩
  · left
    exact ⟨_, _, rfl, h, fun _ => rfl, Quiet.refl _⟩

/-- Outcomes of lines 49-61. -/
theorem listStage_cases (env : Env) (opts : options) (w : World) :
    (∃ ip w1, listStage env opts w =
        .ok { opts with inputPath := env.clean (strings.Trim ip (Char.ofNat 34)) } w1 ∧
        ip ≠ "" ∧ (opts.inputPath ≠ "" → ip = opts.inputPath) ∧ opts.listOnly = false ∧
        Quiet w w1) ∨
    (∃ w1, listStage env opts w = .fatal "Input path is required." w1 ∧
        opts.inputPath = "" ∧ answer opts.nonInteractive w = "" ∧ Quiet w w1) ∨
    (∃ w1, listStage env opts w = .done w1 ∧ opts.listOnly = true ∧ Quiet w w1) := by
  unfold listStage
  rcases inputStage_cases env opts w with ⟨ip, w1, h1, hne, hip, q1⟩ | ⟨w1, h1, h2, h3, q1⟩
  · obtain ⟨u, w2, h2, q2⟩ := Calm.printTitleList env
      (env.clean (strings.Trim ip (Char.ofNat 34))) w1
    cases hl : opts.listOnly
    · left
      refine ⟨ip, w2, ?_, hne, hip, rfl, q1.trans q2⟩
      simp [h1, h2, hl]
    · right; right
      refine ⟨w2, ?_, rfl, q1.trans q2⟩
      simp [h1, h2, hl, returnMain]
  · right; left
    exact ⟨w1, by simp [h1], h2, h3, q1⟩

/-- Outcomes of the title stage. -/
theorem titleStage_cases (opts : options) (w : World) :
    (∃ t w1, titleStage opts w = .ok { opts with title := t } w1 ∧ 0 < t ∧
        (opts.title ≠ 0 → t = opts.title) ∧
        (opts.title = 0 → t = fmt.Sscanf_d (answer opts.nonInteractive w) 0 ∧
          answer opts.nonInteractive w ≠ "") ∧ Quiet w w1) ∨
    (∃ msg w1, titleStage opts w = .fatal msg w1 ∧ Quiet w w1 ∧
        (opts.title < 0 ∨ (opts.title = 0 ∧ (answer opts.nonInteractive w = "" ∨
          fmt.Sscanf_d (answer opts.nonInteractive w) 0 ≤ 0)))) := by
  rw [titleStage_eq]
  split_ifs with h h2 h3 h4
  · right
    exact ⟨_, _, rfl, (afterPrompt_quiet _ _ _).trans (quiet_fatal _ _), Or.inr ⟨h, Or.inl h2⟩⟩
  · right
    exact ⟨_, _, rfl, (afterPrompt_quiet _ _ _).trans (quiet_fatal _ _), Or.inr ⟨h, Or.inr h3⟩⟩
  · left
    exact ⟨_, _, rfl, by omega, fun hne => absurd h hne, fun _ => ⟨rfl, h2⟩,
      afterPrompt_quiet _ _ _⟩
  · right
    exact ⟨_, _, rfl, (quiet_fatal _ _), Or.inl (by omega)⟩
  · left
    exact ⟨opts.title, w, rfl, by omega, fun _ => rfl, fun h0 => absurd h0 h, Quiet.refl _⟩

/-- Outcomes of the first-chapter stage. -/
theorem chapterStartStage_cases (opts : options) (w : World) :
    (∃ c w1, chapterStartStage opts w = .ok { opts with chapterStart := c } w1 ∧ c ≠ "" ∧
        (opts.chapterStart ≠ "" → c = opts.chapterStart) ∧
        (opts.chapterStart = "" → c = answer opts.nonInteractive w) ∧ Quiet w w1) ∨
    (∃ w1, chapterStartStage opts w = .fatal "First chapter is required." w1 ∧ Quiet w w1 ∧
        opts.chapterStart = "" ∧ answer opts.nonInteractive w = "") := by
  rw [chapterStartStage_eq]
  split_ifs with h h2
  · right
    exact ⟨_, rfl, (afterPrompt_quiet _ _ _).trans (quiet_fatal _ _), h, h2⟩
  · left
    exact ⟨_, _, rfl, h2, fun hne => absurd h hne, fun _ => rfl, afterPrompt_quiet _ _ _⟩
  · left
    exact ⟨opts.chapterStart, w, rfl, h, fun _ => rfl, fun h0 => absurd h0 h, Quiet.refl _⟩

theorem afterStart_quiet (opts : options) (w : World) : Quiet w (afterStart opts w) := by
  unfold afterStart
  split_ifs
  · exact afterPrompt_quiet _ _ _
  · exact Quiet.refl _

theorem afterTime_quiet (opts : options) (w : World) : Quiet w (afterTime opts w) := by
  unfold afterTime
  split_ifs
  · exact (afterStart_quiet _ _).trans (afterPrompt_quiet _ _ _)
  · exact afterStart_quiet _ _

/-- Outcomes of the chapter branch. -/
theorem chapterStage_cases (opts : options) (w : World) :
    (∃ e w1, chapterStage opts w =
        .ok { opts := { opts with chapterEnd := e }, useTime := false,
              chapterStartInt := fmt.Sscanf_d opts.chapterStart 0 } w1 ∧
        0 < fmt.Sscanf_d opts.chapterStart 0 ∧ 0 < e ∧
        (opts.chapterEnd ≠ 0 → e = opts.chapterEnd ∧ w1 = w) ∧
        (opts.chapterEnd = 0 → e = fmt.Sscanf_d (answer opts.nonInteractive w) 0 ∧
          answer opts.nonInteractive w ≠ "") ∧ Quiet w w1) ∨
    (∃ msg w1, chapterStage opts w = .fatal msg w1 ∧ Quiet w w1 ∧
        (fmt.Sscanf_d opts.chapterStart 0 ≤ 0 ∨ opts.chapterEnd < 0 ∨
          (opts.chapterEnd = 0 ∧ (answer opts.nonInteractive w = "" ∨
            fmt.Sscanf_d (answer opts.nonInteractive w) 0 ≤ 0)))) := by
  rw [chapterStage_eq]
  split_ifs with h0 h h2 h3 h4
  · right
    exact ⟨_, _, rfl, (quiet_fatal _ _), Or.inl h0⟩
  · right
    exact ⟨_, _, rfl, (afterPrompt_quiet _ _ _).trans (quiet_fatal _ _),
      Or.inr (Or.inr ⟨h, Or.inl h2⟩)⟩
  · right
    exact ⟨_, _, rfl, (afterPrompt_quiet _ _ _).trans (quiet_fatal _ _),
      Or.inr (Or.inr ⟨h, Or.inr h3⟩)⟩
  · left
    exact ⟨_, _, rfl, by omega, by omega, fun hne => absurd h hne, fun _ => ⟨rfl, h2⟩,
      afterPrompt_quiet _ _ _⟩
  · right
    exact ⟨_, _, rfl, (quiet_fatal _ _), Or.inr (Or.inl (by omega))⟩
  · left
    exact ⟨opts.chapterEnd, w, rfl, by omega, by omega, fun _ => ⟨rfl, rfl⟩,
      fun h0 => absurd h0 h, Quiet.refl _⟩

/-- What is known of the options when the title step is reached. -/
theorem listStage_ok {env : Env} {opts o : options} {w w2 : World}
    (h : listStage env opts w = .ok o w2) :
    ∃ ip, o = { opts with inputPath := env.clean (strings.Trim ip (Char.ofNat 34)) } ∧
      ip ≠ "" ∧ (opts.inputPath ≠ "" → ip = opts.inputPath) ∧ opts.listOnly = false ∧
      Quiet w w2 := by
  rcases listStage_cases env opts w with ⟨ip, w1, h1, a, b, c, d⟩ | ⟨w1, h1, -⟩ | ⟨w1, h1, -⟩
  · rw [h1] at h
    simp only [Res.ok.injEq] at h
    obtain ⟨rfl, rfl⟩ := h
    exact ⟨ip, rfl, a, b, c, d⟩
  · rw [h1] at h; cases h
  · rw [h1] at h; cases h

theorem upToTitle_ok {env : Env} {opts o : options} {w w3 : World}
    (h : upToTitle env opts w = .ok o w3) :
    ∃ o1 w2 t, listStage env opts w = .ok o1 w2 ∧ titleStage o1 w2 = .ok o w3 ∧
      o = { o1 with title := t } ∧ 0 < t ∧ (opts.title ≠ 0 → t = opts.title) ∧
      (opts.title = 0 → t = fmt.Sscanf_d (answer opts.nonInteractive w2) 0 ∧
          answer opts.nonInteractive w2 ≠ "") ∧ Quiet w w3 := by
  unfold upToTitle at h
  simp only [bind_apply] at h
  cases h1 : listStage env opts w with
  | ok o1 w2 =>
    rw [h1] at h
    simp only at h
    obtain ⟨ip, rfl, -, -, -, q1⟩ := listStage_ok h1
    rcases titleStage_cases _ w2 with ⟨t, w1, h2, a, b, c, d⟩ | ⟨msg, w1, h2, -⟩
    · rw [h2] at h
      simp only [Res.ok.injEq] at h
      obtain ⟨rfl, rfl⟩ := h
      exact ⟨_, _, t, rfl, h2, rfl, a, b, c, q1.trans d⟩
    · rw [h2] at h; cases h
  | fatal msg w2 => rw [h1] at h; cases h
  | done w2 => rw [h1] at h; cases h

theorem upToChapterStart_ok {env : Env} {opts o : options} {w w4 : World}
    (h : upToChapterStart env opts w = .ok o w4) :
    ∃ o2 w3 c, upToTitle env opts w = .ok o2 w3 ∧ chapterStartStage o2 w3 = .ok o w4 ∧
      o = { o2 with chapterStart := c } ∧ c ≠ "" ∧
      (opts.chapterStart ≠ "" → c = opts.chapterStart) ∧
      (opts.chapterStart = "" → c = answer opts.nonInteractive w3) ∧ Quiet w w4 := by
  unfold upToChapterStart at h
  simp only [bind_apply] at h
  cases h1 : upToTitle env opts w with
  | ok o2 w3 =>
    rw [h1] at h
    simp only at h
    obtain ⟨o1, w2, t, h0, -, rfl, -, -, -, q1⟩ := upToTitle_ok h1
    obtain ⟨ip, rfl, -, -, -, -⟩ := listStage_ok h0
    rcases chapterStartStage_cases _ w3 with ⟨c, w1, h2, a, b, c', d⟩ | ⟨w1, h2, -⟩
    · rw [h2] at h
      simp only [Res.ok.injEq] at h
      obtain ⟨rfl, rfl⟩ := h
      exact ⟨_, _, c, rfl, h2, rfl, a, b, c', q1.trans d⟩
    · rw [h2] at h; cases h
  | fatal msg w2 => rw [h1] at h; cases h
  | done w2 => rw [h1] at h; cases h

/-- Shape of the options when the range step is reached, in terms of the
options the iteration started with. -/
theorem upToChapterStart_shape {env : Env} {opts o : options} {w w4 : World}
    (h : upToChapterStart env opts w = .ok o w4) :
    ∃ ip t c, o = { opts with inputPath := env.clean (strings.Trim ip (Char.ofNat 34)),
                              title := t, chapterStart := c } ∧
      ip ≠ "" ∧ (opts.inputPath ≠ "" → ip = opts.inputPath) ∧
      0 < t ∧ (opts.title ≠ 0 → t = opts.title) ∧
      c ≠ "" ∧ (opts.chapterStart ≠ "" → c = opts.chapterStart) ∧
      opts.listOnly = false ∧ Quiet w w4 := by
  obtain ⟨o2, w3, c, h2, -, rfl, c1, c2, -, q⟩ := upToChapterStart_ok h
  obtain ⟨o1, w2, t, h1, -, rfl, t1, t2, -, -⟩ := upToTitle_ok h2
  obtain ⟨ip, rfl, i1, i2, l, -⟩ := listStage_ok h1
  exact ⟨ip, t, c, rfl, i1, i2, t1, t2, c1, c2, l, q⟩

theorem rangeStage_ok {env : Env} {o : options} {s : Session} {w4 w5 : World}
    (h : rangeStage env o w4 = .ok s w5) :
    s.useTime = useTimeOf o.chapterStart ∧ Quiet w4 w5 ∧
    (s.useTime = true →
      s = { opts := { o with startTime := normalizeStartTime env.lowerExt (rawStart o w4),
                             endTime := normalizeEndTime env.lowerExt (rawEnd o w4) },
            useTime := true, chapterStartInt := 0 } ∧ w5 = afterTime o w4) ∧
    (s.useTime = false → ∃ e,
      s = { opts := { o with chapterEnd := e }, useTime := false,
            chapterStartInt := fmt.Sscanf_d o.chapterStart 0 } ∧
      0 < fmt.Sscanf_d o.chapterStart 0 ∧ 0 < e ∧
      (o.chapterEnd ≠ 0 → e = o.chapterEnd ∧ w5 = w4) ∧
      (o.chapterEnd = 0 → e = fmt.Sscanf_d (answer o.nonInteractive w4) 0 ∧
        answer o.nonInteractive w4 ≠ "")) := by
  rw [rangeStage_eq] at h
  split_ifs at h with hu
  · simp only [Res.ok.injEq] at h
    obtain ⟨rfl, rfl⟩ := h
    exact ⟨hu.symm, afterTime_quiet _ _, fun _ => ⟨rfl, rfl⟩, fun hf => by simp at hf⟩
  · rcases chapterStage_cases o w4 with ⟨e, w1, h2, a, b, c, d, q⟩ | ⟨msg, w1, h2, -⟩
    · rw [h2] at h
      simp only [Res.ok.injEq] at h
      obtain ⟨rfl, rfl⟩ := h
      refine ⟨by simpa using hu, q, fun hf => by simp at hf, fun _ => ⟨e, rfl, a, b, c, d⟩⟩
    · rw [h2] at h; cases h

theorem upToRange_ok {env : Env} {opts : options} {s : Session} {w w5 : World}
    (h : upToRange env opts w = .ok s w5) :
    ∃ o w4, upToChapterStart env opts w = .ok o w4 ∧ rangeStage env o w4 = .ok s w5 ∧
      Quiet w w5 := by
  unfold upToRange at h
  simp only [bind_apply] at h
  cases h1 : upToChapterStart env opts w with
  | ok o w4 =>
    rw [h1] at h
    obtain ⟨-, -, -, -, -, -, -, -, -, q⟩ := upToChapterStart_ok h1
    exact ⟨o, w4, rfl, h, q.trans (rangeStage_ok h).2.1⟩
  | fatal msg w2 => rw [h1] at h; cases h
  | done w2 => rw [h1] at h; cases h

theorem gather_eq_of_range {env : Env} {opts : options} {s : Session} {w w5 : World}
    (h : upToRange env opts w = .ok s w5) :
    gather env opts w =
      .ok { s with opts := { s.opts with
              outputFile := outputName env.lowerExt (rawOutput s.opts w5) } }
        (afterOutput s.opts w5) := by
  unfold gather
  simp [h, outputStage_eq, afterOutput]

theorem afterOutput_quiet (opts : options) (w : World) : Quiet w (afterOutput opts w) := by
  unfold afterOutput
  split_ifs
  · exact afterPrompt_quiet _ _ _
  · exact Quiet.refl _

theorem gather_ok {env : Env} {opts : options} {s : Session} {w w6 : World}
    (h : gather env opts w = .ok s w6) :
    ∃ s5 w5, upToRange env opts w = .ok s5 w5 ∧
      s = { s5 with opts := { s5.opts with
              outputFile := outputName env.lowerExt (rawOutput s5.opts w5) } } ∧
      w6 = afterOutput s5.opts w5 ∧ Quiet w w6 := by
  cases h1 : upToRange env opts w with
  | ok s5 w5 =>
    rw [gather_eq_of_range h1] at h
    simp only [Res.ok.injEq] at h
    obtain ⟨rfl, rfl⟩ := h
    obtain ⟨-, -, -, -, q⟩ := upToRange_ok h1
    exact ⟨s5, w5, rfl, rfl, rfl, q.trans (afterOutput_quiet _ _)⟩
  | fatal msg w2 => simp [gather, h1] at h
  | done w2 => simp [gather, h1] at h

/-- What holds of a session that reached the composition of the arguments. -/
theorem gather_facts {env : Env} {opts : options} {s : Session} {w w6 : World}
    (h : gather env opts w = .ok s w6) :
    Quiet w w6 ∧ opts.listOnly = false ∧ s.opts.listOnly = false ∧
    s.opts.nonInteractive = opts.nonInteractive ∧
    (∃ ip, ip ≠ "" ∧ (opts.inputPath ≠ "" → ip = opts.inputPath) ∧
      s.opts.inputPath = env.clean (strings.Trim ip (Char.ofNat 34))) ∧
    0 < s.opts.title ∧ (opts.title ≠ 0 → s.opts.title = opts.title) ∧
    s.opts.chapterStart ≠ "" ∧ (opts.chapterStart ≠ "" → s.opts.chapterStart = opts.chapterStart) ∧
    s.useTime = useTimeOf s.opts.chapterStart ∧
    (∃ f, s.opts.outputFile = outputName env.lowerExt f ∧
      (opts.outputFile ≠ "" → f = opts.outputFile) ∧
      (opts.outputFile = "" → ∃ w5, f = answer opts.nonInteractive w5)) ∧
    (s.useTime = true → s.chapterStartInt = 0 ∧ s.opts.chapterEnd = opts.chapterEnd ∧
      ∃ x y, s.opts.startTime = normalizeStartTime env.lowerExt x ∧
        s.opts.endTime = normalizeEndTime env.lowerExt y ∧
        (opts.startTime ≠ "" → x = opts.startTime) ∧
        (opts.startTime = "" → s.opts.chapterStart ≠ "0" → x = s.opts.chapterStart) ∧
        (opts.startTime = "" → s.opts.chapterStart = "0" → ∃ w4, x = answer opts.nonInteractive w4) ∧
        (opts.endTime ≠ "" → y = opts.endTime) ∧
        (opts.endTime = "" → ∃ w4, y = answer opts.nonInteractive w4)) ∧
    (s.useTime = false → s.chapterStartInt = fmt.Sscanf_d s.opts.chapterStart 0 ∧
      0 < s.chapterStartInt ∧ 0 < s.opts.chapterEnd ∧
      (opts.chapterEnd ≠ 0 → s.opts.chapterEnd = opts.chapterEnd) ∧
      (opts.chapterEnd = 0 → ∃ w4, s.opts.chapterEnd =
        fmt.Sscanf_d (answer opts.nonInteractive w4) 0) ∧
      s.opts.startTime = opts.startTime ∧ s.opts.endTime = opts.endTime) := by
  obtain ⟨s5, w5, h5, rfl, -, q⟩ := gather_ok h
  obtain ⟨o, w4, h4, hr, -⟩ := upToRange_ok h5
  obtain ⟨ip, t, c, rfl, i1, i2, t1, t2, c1, c2, l, -⟩ := upToChapterStart_shape h4
  obtain ⟨hu, -, htime, hchap⟩ := rangeStage_ok hr
  cases hm : s5.useTime
  · obtain ⟨e, rfl, e1, e2, e3, e4⟩ := hchap hm
    dsimp only at hu e1 e3 e4 ⊢
    refine ⟨q, l, l, rfl, ⟨ip, i1, i2, rfl⟩, t1, t2, c1, c2, hu, ⟨_, rfl, ?_, ?_⟩, ?_, ?_⟩
    · intro hne; simp [rawOutput, hne]
    · intro he; exact ⟨w5, by simp [rawOutput, he]⟩
    · intro hf; cases hf
    · intro _
      refine ⟨rfl, e1, e2, fun hne => (e3 hne).1, fun he => ⟨w4, (e4 he).1⟩, rfl, rfl⟩
  · obtain ⟨rfl, rfl⟩ := htime hm
    dsimp only at hu ⊢
    refine ⟨q, l, l, rfl, ⟨ip, i1, i2, rfl⟩, t1, t2, c1, c2, hu, ⟨_, rfl, ?_, ?_⟩, ?_, ?_⟩
    · intro hne; simp [rawOutput, hne]
    · intro he
      exact ⟨_, by dsimp only [rawOutput]; rw [if_pos he]⟩
    · intro _
      refine ⟨rfl, rfl, _, _, rfl, rfl, ?_, ?_, ?_, ?_, ?_⟩
      · intro hne; simp [rawStart, hne]
      · intro he hc; simp [rawStart, he, hc]
      · intro he hc; exact ⟨w4, by simp [rawStart, he, hc]⟩
      · intro hne; simp [rawEnd, hne]
      · intro he
        exact ⟨_, by dsimp only [rawEnd]; rw [if_pos he]⟩
    · intro hf; cases hf

/-- The audio stage, by the result of the probe. -/
theorem audioStage_eq (env : Env) (s : Session) (w : World) :
    audioStage env s w =
      match env.capture (w.trace ++ [.stdout "\n", .stdout "Analyzing audio codec...\n"])
          "ffprobe" (audioProbeArgs s.opts.inputPath s.opts.title) with
      | .error err =>
        .fatal err { w with trace := w.trace ++
          [.stdout "\n", .stdout "Analyzing audio codec...\n",
           .exec "ffprobe" (audioProbeArgs s.opts.inputPath s.opts.title)] ++ fatalEvents err }
      | .ok out =>
        if strings.TrimSpace out = "" then
          .fatal ("no audio codec detected. " ++
              "Check if ffprobe is in your PATH and the input is valid")
            { w with trace := w.trace ++
              [.stdout "\n", .stdout "Analyzing audio codec...\n",
               .exec "ffprobe" (audioProbeArgs s.opts.inputPath s.opts.title)] ++
              fatalEvents ("no audio codec detected. " ++
                "Check if ffprobe is in your PATH and the input is valid") }
        else
          .ok (strings.TrimSpace out) { w with trace := w.trace ++
            [.stdout "\n", .stdout "Analyzing audio codec...\n",
             .exec "ffprobe" (audioProbeArgs s.opts.inputPath s.opts.title),
             .stdout ("Detected audio codec: " ++ strings.TrimSpace out ++ "\n")] } := by
  unfold audioStage detectAudioCodec
  simp only [bind_apply, println_eq, runCommandCapture_eq]
  cases hc : env.capture (w.trace ++ [.stdout ("" ++ "\n")] ++
      [.stdout ("Analyzing audio codec..." ++ "\n")]) "ffprobe"
      (audioProbeArgs s.opts.inputPath s.opts.title) with
  | error e =>
    have hc' : env.capture (w.trace ++ [.stdout "\n", .stdout "Analyzing audio codec...\n"])
        "ffprobe" (audioProbeArgs s.opts.inputPath s.opts.title) = .error e := by
      rw [← hc]; simp
    rw [hc']
    simp [fatal, fatalEvents]
  | ok out =>
    have hc' : env.capture (w.trace ++ [.stdout "\n", .stdout "Analyzing audio codec...\n"])
        "ffprobe" (audioProbeArgs s.opts.inputPath s.opts.title) = .ok out := by
      rw [← hc]; simp
    rw [hc']
    by_cases ht : strings.TrimSpace out = ""
    · simp [ht, fatal, fatalEvents]
    · simp [ht, println_eq]

/-- The remux stage, by the result of the run. -/
theorem remuxStage_eq (env : Env) (args : List String) (w : World) :
    remuxStage env args w =
      match env.run (w.trace ++ [.stdout "\n", .stdout "Remuxing file...\n"]) "ffmpeg" args with
      | some err =>
        .fatal err { w with trace := w.trace ++
          [.stdout "\n", .stdout "Remuxing file...\n", .exec "ffmpeg" args] ++ fatalEvents err }
      | none =>
        .ok () { w with trace := w.trace ++
          [.stdout "\n", .stdout "Remuxing file...\n", .exec "ffmpeg" args,
           .stdout "Process finished.\n"] } := by
  unfold remuxStage runCommand
  simp only [bind_apply, println_eq]
  cases hc : env.run (w.trace ++ [.stdout ("" ++ "\n")] ++
      [.stdout ("Remuxing file..." ++ "\n")]) "ffmpeg" args with
  | some e =>
    have hc' : env.run (w.trace ++ [.stdout "\n", .stdout "Remuxing file...\n"])
        "ffmpeg" args = some e := by
      rw [← hc]; simp
    rw [hc']
    simp [fatal, fatalEvents]
  | none =>
    have hc' : env.run (w.trace ++ [.stdout "\n", .stdout "Remuxing file...\n"])
        "ffmpeg" args = none := by
      rw [← hc]; simp
    rw [hc']
    simp [println_eq]

/-- Outcomes of lines 153-170. -/
theorem continueStage_cases (env : Env) (opts : options) (w : World) :
    (∃ w1, continueStage env opts w = .done w1 ∧ Quiet w w1) ∨
    (∃ w1 w0, continueStage env opts w = .ok options.zero w1 ∧ Quiet w w1 ∧
      opts.nonInteractive = false ∧ promptContinue env false w = .ok true w0) := by
  unfold continueStage
  cases hn : opts.nonInteractive
  · obtain ⟨b, w1, hp, q⟩ := Calm.promptContinue env w
    simp only [Bool.false_eq_true, if_false, bind_apply, hp]
    cases b
    · left
      exact ⟨w1, by simp [returnMain], q⟩
    · right
      obtain ⟨u, w2, h2, q2⟩ := Calm.bind Calm.clearScreen (fun _ => Calm.printHeader) w1
      simp only [bind_apply] at h2
      refine ⟨w2, w1, ?_, q.trans q2, trivial, rfl⟩
      simp only [Bool.not_true, Bool.false_eq_true, if_false, bind_apply]
      revert h2
      cases clearScreen w1 with
      | ok a w3 =>
        simp only
        intro h2
        rw [h2]
        simp [options.zero, hn]
      | fatal m w3 => intro h2; cases h2
      | done w3 => intro h2; cases h2
  · left
    exact ⟨w, by simp [returnMain], Quiet.refl _⟩

theorem audioStage_ok {env : Env} {s : Session} {c : String} {w1 w2 : World}
    (h : audioStage env s w1 = .ok c w2) :
    Quiet w1 w2 ∧ c ≠ "" ∧
    ∃ out, env.capture (w1.trace ++ [.stdout "\n", .stdout "Analyzing audio codec...\n"])
      "ffprobe" (audioProbeArgs s.opts.inputPath s.opts.title) = .ok out ∧
      c = strings.TrimSpace out := by
  rw [audioStage_eq] at h
  split at h
  · cases h
  · rename_i out hout
    split_ifs at h with ht
    simp only [Res.ok.injEq] at h
    obtain ⟨rfl, rfl⟩ := h
    exact ⟨by simp [Quiet, ffmpegRuns_append, ffmpegRuns, audioProbeArgs], ht, out, hout, rfl⟩

theorem audioStage_quiet (env : Env) (s : Session) (w : World) :
    Quiet w (audioStage env s w).world := by
  rw [audioStage_eq]
  split
  · simp [Res.world, Quiet, ffmpegRuns_append, ffmpegRuns, fatalEvents]
  · split_ifs <;> simp [Res.world, Quiet, ffmpegRuns_append, ffmpegRuns, fatalEvents]

theorem iteration_of_listStage_fatal {env : Env} {opts : options} {w w1 : World} {m : String}
    (h : listStage env opts w = .fatal m w1) : iteration env opts w = .fatal m w1 := by
  simp [iteration, gather, upToRange, upToChapterStart, upToTitle, h]

theorem iteration_of_listStage_done {env : Env} {opts : options} {w w1 : World}
    (h : listStage env opts w = .done w1) : iteration env opts w = .done w1 := by
  simp [iteration, gather, upToRange, upToChapterStart, upToTitle, h]

theorem iteration_of_titleStage_fatal {env : Env} {opts o : options} {w w1 w2 : World}
    {m : String} (h : listStage env opts w = .ok o w1) (h2 : titleStage o w1 = .fatal m w2) :
    iteration env opts w = .fatal m w2 := by
  simp [iteration, gather, upToRange, upToChapterStart, upToTitle, h, h2]

theorem iteration_of_chapterStartStage_fatal {env : Env} {opts o : options} {w w1 w2 : World}
    {m : String} (h : upToTitle env opts w = .ok o w1)
    (h2 : chapterStartStage o w1 = .fatal m w2) :
    iteration env opts w = .fatal m w2 := by
  simp [iteration, gather, upToRange, upToChapterStart, h, h2]

theorem iteration_of_rangeStage_fatal {env : Env} {opts o : options} {w w1 w2 : World}
    {m : String} (h : upToChapterStart env opts w = .ok o w1)
    (h2 : rangeStage env o w1 = .fatal m w2) :
    iteration env opts w = .fatal m w2 := by
  simp [iteration, gather, upToRange, h, h2]

/-- Every iteration records at most the ffmpeg run it composed: the link
between the composed argument list and the process that is started. -/
theorem iteration_run {env : Env} {opts : options} {s : Session} {c : String}
    {w w1 w2 : World} (hg : gather env opts w = .ok s w1)
    (ha : audioStage env s w1 = .ok c w2) :
    ffmpegRuns (iteration env opts w).world.trace =
      ffmpegRuns w.trace ++ [ffmpegArgs env.lowerExt s c] := by
  have q1 : Quiet w w1 := (gather_facts hg).1
  have q2 : Quiet w1 w2 := (audioStage_ok ha).1
  have q : ffmpegRuns w2.trace = ffmpegRuns w.trace := (q1.trans q2)
  unfold iteration
  simp only [bind_apply, hg, ha, remuxStage_eq]
  cases hr : env.run (w2.trace ++ [.stdout "\n", .stdout "Remuxing file...\n"]) "ffmpeg"
      (ffmpegArgs env.lowerExt s c) with
  | some e =>
    simp [Res.world, ffmpegRuns_append, ffmpegRuns, fatalEvents, q]
  | none =>
    simp only
    rcases continueStage_cases env s.opts
        { w2 with trace := w2.trace ++ [.stdout "\n", .stdout "Remuxing file...\n",
          .exec "ffmpeg" (ffmpegArgs env.lowerExt s c), .stdout "Process finished.\n"] }
      with ⟨w3, h3, q3⟩ | ⟨w3, w0, h3, q3, -⟩
    · rw [h3]
      simp only [Res.world]
      rw [q3]
      simp [ffmpegRuns_append, ffmpegRuns, q]
    · rw [h3]
      simp only [Res.world]
      rw [q3]
      simp [ffmpegRuns_append, ffmpegRuns, q]

theorem ToLower_append (ext : Char → Char) (a b : String) :
    strings.ToLower ext (a ++ b) = strings.ToLower ext a ++ strings.ToLower ext b := by
  apply String.ext
  simp [strings.ToLower, String.data_append]

theorem ToLower_mkv (ext : Char → Char) : strings.ToLower ext ".mkv" = ".mkv" := by
  rfl

theorem ToLower_empty (ext : Char → Char) : strings.ToLower ext "" = "" := rfl

theorem HasSuffix_append (a b : String) : strings.HasSuffix (a ++ b) b = true := by
  unfold strings.HasSuffix
  rw [String.data_append, List.reverse_append, List.isPrefixOf_iff_prefix]
  exact List.prefix_append _ _

theorem HasSuffix_outputName (ext : Char → Char) (f : String) :
    strings.HasSuffix (strings.ToLower ext (outputName ext f)) ".mkv" = true := by
  unfold outputName
  simp only
  split_ifs with h1 h2 h2
  · exact h2
  · rw [ToLower_append, ToLower_mkv]; exact HasSuffix_append _ _
  · exact h2
  · rw [ToLower_append, ToLower_mkv]; exact HasSuffix_append _ _

theorem outputName_empty (ext : Char → Char) : outputName ext "" = "output.mkv" := rfl

theorem outputName_keep (ext : Char → Char) (f : String) (hf : f ≠ "")
    (h : strings.HasSuffix (strings.ToLower ext f) ".mkv" = true) : outputName ext f = f := by
  unfold outputName
  simp [hf, h]

theorem outputName_idem (ext : Char → Char) (f : String) :
    outputName ext (outputName ext f) = outputName ext f := by
  have h := HasSuffix_outputName ext f
  have hne : outputName ext f ≠ "" := by
    intro h0
    rw [h0, ToLower_empty] at h
    exact absurd h (by decide)
  exact outputName_keep ext _ hne h

theorem outputName_add (ext : Char → Char) (f : String) (hf : f ≠ "")
    (h : strings.HasSuffix (strings.ToLower ext f) ".mkv" = false) :
    outputName ext f = f ++ ".mkv" := by
  unfold outputName
  simp [hf, h]

theorem normalizeStartTime_ne (ext : Char → Char) (x : String) :
    normalizeStartTime ext x ≠ "" := by
  unfold normalizeStartTime
  simp only
  split_ifs with h
  · decide
  · intro hx
    subst hx
    exact h (Or.inl rfl)

theorem normalizeStartTime_idem (ext : Char → Char) (x : String) :
    normalizeStartTime ext (normalizeStartTime ext x) = normalizeStartTime ext x := by
  by_cases h : strings.TrimSpace (strings.ToLower ext x) = "" ∨
      strings.TrimSpace (strings.ToLower ext x) = "0" ∨
      strings.TrimSpace (strings.ToLower ext x) = "first" ∨
      strings.TrimSpace (strings.ToLower ext x) = "start"
  · have h1 : normalizeStartTime ext x = "00:00:00" := by
      unfold normalizeStartTime; simp only [h, if_true]
    rw [h1]
    rfl
  · have h1 : normalizeStartTime ext x = x := by
      unfold normalizeStartTime; simp only [h, if_false]
    rw [h1, h1]

theorem normalizeEndTime_idem (ext : Char → Char) (x : String) :
    normalizeEndTime ext (normalizeEndTime ext x) = normalizeEndTime ext x := by
  by_cases h : strings.TrimSpace (strings.ToLower ext x) = "" ∨
      strings.TrimSpace (strings.ToLower ext x) = "last" ∨
      strings.TrimSpace (strings.ToLower ext x) = "end"
  · have h1 : normalizeEndTime ext x = "" := by
      unfold normalizeEndTime; simp only [h, if_true]
    rw [h1]
    rfl
  · have h1 : normalizeEndTime ext x = x := by
      unfold normalizeEndTime; simp only [h, if_false]
    rw [h1, h1]

theorem normalizeEndTime_ne_iff (ext : Char → Char) (x : String) :
    normalizeEndTime ext x ≠ "" ↔
      ¬ (strings.TrimSpace (strings.ToLower ext x) = "" ∨
         strings.TrimSpace (strings.ToLower ext x) = "last" ∨
         strings.TrimSpace (strings.ToLower ext x) = "end") := by
  unfold normalizeEndTime
  simp only
  split_ifs with h
  · simp [h]
  · simp only [h, not_false_eq_true, iff_true]
    intro hx
    subst hx
    exact h (Or.inl rfl)

theorem digitChar_isDigit : ∀ m, m < 10 →
    (Nat.digitChar m).isDigit = true ∧ (Nat.digitChar m).toNat - 48 = m := by
  decide

theorem digitsValue_append (ds : List Char) (d : Char) :
    strconv.digitsValue (ds ++ [d]) = 10 * strconv.digitsValue ds + (d.toNat - 48) := by
  simp [strconv.digitsValue, List.foldl_append]

/-- The decimal rendering of a number: a non-empty run of digits whose value
is the number. -/
theorem toDigitsCore_spec (fuel : Nat) : ∀ (n : Nat) (acc : List Char), n < fuel →
    ∃ ds, Nat.toDigitsCore 10 fuel n acc = ds ++ acc ∧ ds ≠ [] ∧
      (∀ c ∈ ds, c.isDigit = true) ∧ strconv.digitsValue ds = n := by
  induction fuel with
  | zero => intro n acc h; omega
  | succ fuel ih =>
    intro n acc h
    have hd := digitChar_isDigit (n % 10) (Nat.mod_lt _ (by decide))
    unfold Nat.toDigitsCore
    simp only
    split_ifs with h0
    · refine ⟨[Nat.digitChar (n % 10)], rfl, by simp, ?_, ?_⟩
      · intro c hc
        simp only [List.mem_singleton] at hc
        rw [hc]; exact hd.1
      · simp only [strconv.digitsValue, List.foldl_cons, List.foldl_nil, Nat.mul_zero, Nat.zero_add]
        rw [hd.2]
        omega
    · have hlt : n / 10 < fuel := by omega
      obtain ⟨ds, h1, h2, h3, h4⟩ := ih (n / 10) (Nat.digitChar (n % 10) :: acc) hlt
      refine ⟨ds ++ [Nat.digitChar (n % 10)], by rw [h1]; simp, by simp, ?_, ?_⟩
      · intro c hc
        rcases List.mem_append.mp hc with hc | hc
        · exact h3 c hc
        · simp only [List.mem_singleton] at hc
          rw [hc]; exact hd.1
      · rw [digitsValue_append, h4, hd.2]
        omega

theorem repr_spec (n : Nat) :
    (Nat.repr n).data ≠ [] ∧ (∀ c ∈ (Nat.repr n).data, c.isDigit = true) ∧
      strconv.digitsValue (Nat.repr n).data = n := by
  obtain ⟨ds, h1, h2, h3, h4⟩ := toDigitsCore_spec (n + 1) n [] (Nat.lt_succ_self n)
  have : (Nat.repr n).data = ds := by
    simp [Nat.repr, Nat.toDigits, h1, List.asString]
  rw [this]
  exact ⟨h2, h3, h4⟩

/-- Every rune of a `%d` rendering is a decimal digit or the minus sign. -/
theorem Sprintf_d_chars (n : Int) :
    ∀ c ∈ (fmt.Sprintf_d n).data, c.isDigit = true ∨ c = '-' := by
  intro c hc
  cases n with
  | ofNat m =>
    exact Or.inl ((repr_spec m).2.1 c hc)
  | negSucc m =>
    have : (fmt.Sprintf_d (Int.negSucc m)).data = '-' :: (Nat.repr (m + 1)).data := rfl
    rw [this] at hc
    rcases List.mem_cons.mp hc with hc | hc
    · exact Or.inr hc
    · exact Or.inl ((repr_spec (m + 1)).2.1 c hc)

theorem Sprintf_d_ne_of_mem (n : Int) (t : String) (c : Char) (hc : c ∈ t.data)
    (h1 : c.isDigit = false) (h2 : c ≠ '-') : fmt.Sprintf_d n ≠ t := by
  intro h
  rw [← h] at hc
  rcases Sprintf_d_chars n c hc with h3 | h3
  · rw [h1] at h3; cases h3
  · exact h2 h3

theorem isDigit_facts {c : Char} (h : c.isDigit = true) :
    unicode.IsSpace c = false ∧ c ≠ '\n' ∧ c ≠ '\r' ∧ c ≠ '+' ∧ c ≠ '-' ∧ c ≠ ':' ∧
      fmt.isScanDigit c = true := by
  refine ⟨?_, ?_, ?_, ?_, ?_, ?_, h⟩
  · simp only [Char.isDigit, Bool.and_eq_true, decide_eq_true_eq] at h
    have h1 : 48 ≤ c.toNat := h.1
    have h2 : c.toNat ≤ 57 := h.2
    simp only [unicode.IsSpace]
    simp
    omega
  all_goals
    intro hc
    subst hc
    exact absurd h (by decide)

theorem takeWhile_all {α : Type} (p : α → Bool) (l : List α) (h : ∀ a ∈ l, p a = true) :
    l.takeWhile p = l := by
  induction l with
  | nil => rfl
  | cons a t ih =>
    simp only [List.takeWhile_cons, h a (List.mem_cons_self a t), if_true]
    rw [ih (fun b hb => h b (List.mem_cons_of_mem a hb))]

/-- Scanning the `%d` rendering of a positive 64-bit number gives it back. -/
theorem Sscanf_Sprintf (s x : Int) (h0 : 0 < s) (h1 : s < 2 ^ 63) :
    fmt.Sscanf_d (fmt.Sprintf_d s) x = s := by
  cases s with
  | negSucc m => exact absurd h0 (by simp [Int.negSucc_lt_zero])
  | ofNat n =>
    obtain ⟨hne, hdig, hval⟩ := repr_spec n
    have hdata : (fmt.Sprintf_d (Int.ofNat n)).data = (Nat.repr n).data := rfl
    unfold fmt.Sscanf_d
    rw [hdata]
    cases hl : (Nat.repr n).data with
    | nil => exact absurd hl hne
    | cons c rest =>
      rw [hl] at hdig hval
      have hc := isDigit_facts (hdig c (List.mem_cons_self c rest))
      have hskip : fmt.SkipSpace (c :: rest) = some (c :: rest) := by
        unfold fmt.SkipSpace
        simp [hc.1, hc.2.1, hc.2.2.1]
      rw [hskip]
      have hrun : (c :: rest).takeWhile fmt.isScanDigit = c :: rest :=
        takeWhile_all _ _ (fun a ha => (isDigit_facts (hdig a ha)).2.2.2.2.2.2)
      have hn : n < 2 ^ 63 := by
        have : (n : Int) < 2 ^ 63 := h1
        exact_mod_cast this
      have hall : (c :: rest).all Char.isDigit = true := by
        rw [List.all_eq_true]; exact hdig
      simp only [fmt.scanInt, hc.2.2.2.1, hc.2.2.2.2.1, or_self, if_false, hrun]
      have hn2 : n < 9223372036854775808 := by omega
      unfold strconv.ParseInt
      simp [hall, hval, hn2]

theorem containsList_singleton {c : Char} {l : List Char}
    (h : containsList [c] l = true) : c ∈ l := by
  induction l with
  | nil => simp [containsList] at h
  | cons a t ih =>
    simp only [containsList, Bool.or_eq_true] at h
    rcases h with h | h
    · simp only [List.isPrefixOf, Bool.and_eq_true, beq_iff_eq] at h
      rw [h.1]; exact List.mem_cons_self a t
    · exact List.mem_cons_of_mem a (ih h)

/-- The `%d` rendering of a positive number selects chapter mode. -/
theorem useTimeOf_Sprintf (s : Int) (h0 : 0 < s) (h1 : s < 2 ^ 63) :
    useTimeOf (fmt.Sprintf_d s) = false := by
  unfold useTimeOf
  simp only [Bool.or_eq_false_iff, decide_eq_false_iff_not]
  constructor
  · intro h
    have := Sscanf_Sprintf s 0 h0 h1
    rw [h] at this
    have h2 : fmt.Sscanf_d "0" 0 = 0 := by decide
    omega
  · cases hc : strings.Contains (fmt.Sprintf_d s) ":" with
    | false => rfl
    | true =>
      have hm : ':' ∈ (fmt.Sprintf_d s).data := containsList_singleton hc
      rcases Sprintf_d_chars s _ hm with h | h
      · exact absurd h (by decide)
      · exact absurd h (by decide)



/-- `strings.Contains` holds exactly of the strings that have `sub` as a
contiguous block. -/
theorem Contains_iff (s sub : String) :
    strings.Contains s sub = true ↔ ∃ a b, s.data = a ++ sub.data ++ b := by
  unfold strings.Contains
  suffices h : ∀ l : List Char, containsList sub.data l = true ↔ sub.data <:+: l from
    (h s.data).trans ⟨fun ⟨a, b, e⟩ => ⟨a, b, e.symm⟩, fun ⟨a, b, e⟩ => ⟨a, b, e.symm⟩⟩
  intro l
  induction l with
  | nil => simp [containsList, List.isEmpty_iff]
  | cons c t ih =>
    simp only [containsList, Bool.or_eq_true, ih, List.infix_cons_iff, List.isPrefixOf_iff_prefix]

/-- An iteration goes on to a next one only after a successful remux and a
positive answer to the continue prompt, and then with the zero options. -/
theorem iteration_ok {env : Env} {opts o : options} {w w1 : World}
    (h : iteration env opts w = .ok o w1) :
    o = options.zero ∧ ∃ s c w2 w3 w4 w5, gather env opts w = .ok s w2 ∧
      audioStage env s w2 = .ok c w3 ∧ s.opts.nonInteractive = false ∧
      remuxStage env (ffmpegArgs env.lowerExt s c) w3 = .ok () w4 ∧
      promptContinue env false w4 = .ok true w5 := by
  unfold iteration at h
  simp only [bind_apply] at h
  cases hg : gather env opts w with
  | fatal m w2 => rw [hg] at h; cases h
  | done w2 => rw [hg] at h; cases h
  | ok s w2 =>
    rw [hg] at h
    simp only at h
    cases ha : audioStage env s w2 with
    | fatal m w3 => rw [ha] at h; cases h
    | done w3 => rw [ha] at h; cases h
    | ok c w3 =>
      rw [ha] at h
      simp only at h
      cases hr : remuxStage env (ffmpegArgs env.lowerExt s c) w3 with
      | fatal m w4 => rw [hr] at h; cases h
      | done w4 => rw [hr] at h; cases h
      | ok u w4 =>
        rw [hr] at h
        simp only at h
        rcases continueStage_cases env s.opts w4 with ⟨w5, h5, -⟩ | ⟨w5, w0, h5, -, hn, hp⟩
        · rw [h5] at h; cases h
        · rw [h5] at h
          simp only [Res.ok.injEq] at h
          exact ⟨h.1.symm, s, c, w2, w3, w4, w0, rfl, ha, hn, hr, hp⟩

/-- C7: when an iteration of the session loop completes and the user opts to
process another file, the options the next iteration starts with are the zero
value in every field, so nothing carries over from the previous file or from
the flags. -/
theorem C7_options_reset (env : Env) (opts opts1 : options) (w w1 : World)
    (h : iteration env opts w = .ok opts1 w1) :
    opts1 = options.zero ∧
    opts1.inputPath = "" ∧ opts1.chapterStart = "" ∧ opts1.startTime = "" ∧
    opts1.endTime = "" ∧ opts1.outputFile = "" ∧ opts1.title = 0 ∧ opts1.chapterEnd = 0 ∧
    opts1.listOnly = false ∧ opts1.nonInteractive = false ∧
    ∀ fuel, sessionLoop env (fuel + 1) opts w = sessionLoop env fuel options.zero w1 := by
  obtain ⟨rfl, -⟩ := iteration_ok h
  refine ⟨rfl, rfl, rfl, rfl, rfl, rfl, rfl, rfl, rfl, rfl, ?_⟩
  intro fuel
  simp only [sessionLoop, h]

/-- C7 at a concrete session: every flag is given, the remux succeeds and the
user presses Enter; the second iteration starts from the zero options. -/
theorem C7_options_reset_witness :
    iteration demoEnv fullOpts enterWorld =
      .ok options.zero (iteration demoEnv fullOpts enterWorld).world ∧
    sessionLoop demoEnv 2 fullOpts enterWorld =
      sessionLoop demoEnv 1 options.zero (iteration demoEnv fullOpts enterWorld).world :=
  ⟨by decide,
   (C7_options_reset demoEnv fullOpts options.zero enterWorld
      (iteration demoEnv fullOpts enterWorld).world (by decide)).2.2.2.2.2.2.2.2.2.2 1⟩

/-- C6: for every detected audio codec name the audio part of the ffmpeg
arguments is the FLAC transcoding exactly when the lower-cased name contains
"pcm" (as a contiguous block of runes) and the pass-through otherwise; it
stands after "-c" "copy" and right before the output filename, which is the
last argument; and this list is the one the ffmpeg run of the iteration gets. -/
theorem C6_audio_arguments (env : Env) (s : Session) (c : String) :
    ffmpegArgs env.lowerExt s c =
      ["-hide_banner", "-f", "dvdvideo", "-preindex", "True", "-title",
        fmt.Sprintf_d s.opts.title] ++ rangeArgs s ++ ["-i", s.opts.inputPath, "-map", "0"] ++
      ["-c", "copy"] ++ audioArgs env.lowerExt c ++ [s.opts.outputFile] ∧
    (ffmpegArgs env.lowerExt s c).getLast? = some s.opts.outputFile ∧
    (audioArgs env.lowerExt c = ["-c:a", "flac", "-compression_level:a", "8"] ↔
      strings.Contains (strings.ToLower env.lowerExt c) "pcm" = true) ∧
    (audioArgs env.lowerExt c = ["-c:a", "copy"] ↔
      strings.Contains (strings.ToLower env.lowerExt c) "pcm" = false) ∧
    (∀ opts w w1 w2, gather env opts w = .ok s w1 → audioStage env s w1 = .ok c w2 →
      ffmpegRuns (iteration env opts w).world.trace =
        ffmpegRuns w.trace ++ [ffmpegArgs env.lowerExt s c]) ∧
    (strings.Contains (strings.ToLower env.lowerExt c) "pcm" = true ↔
      ∃ a b, (strings.ToLower env.lowerExt c).data = a ++ "pcm".data ++ b) := by
  refine ⟨?_, ?_, ?_, ?_, fun opts w w1 w2 hg ha => iteration_run hg ha, Contains_iff _ _⟩
  · simp [ffmpegArgs]
  · unfold ffmpegArgs
    exact List.getLast?_concat _
  · unfold audioArgs
    split_ifs with h <;> simp [h]
  · unfold audioArgs
    split_ifs with h <;> simp [h]

/-- C6 at a concrete session: an LPCM track is transcoded, and the run of the
batch session gets the composed list. -/
theorem C6_audio_arguments_witness :
    audioArgs demoEnv.lowerExt "PCM_DVD" = ["-c:a", "flac", "-compression_level:a", "8"] ∧
    ffmpegRuns (iteration demoEnv batchOpts emptyWorld).world.trace =
      ffmpegRuns emptyWorld.trace ++ [ffmpegArgs demoEnv.lowerExt batchSession "ac3"] :=
  ⟨(C6_audio_arguments demoEnv batchSession "PCM_DVD").2.2.1.mpr (by decide),
   (C6_audio_arguments demoEnv batchSession "ac3").2.2.2.2.1 batchOpts emptyWorld
      (gather demoEnv batchOpts emptyWorld).world
      (audioStage demoEnv batchSession (gather demoEnv batchOpts emptyWorld).world).world
      (by decide) (by decide)⟩

theorem ffmpegArgs_getLast (ext : Char → Char) (s : Session) (c : String) :
    (ffmpegArgs ext s c).getLast? = some s.opts.outputFile := by
  unfold ffmpegArgs
  exact List.getLast?_concat _

/-- Trimming and lower-casing commute for a case table that keeps spaces
spaces and the other runes non-spaces. -/
theorem TrimSpace_ToLower_comm (ext : Char → Char)
    (h : ∀ c, unicode.IsSpace (unicode.ToLower ext c) = unicode.IsSpace c) (x : String) :
    strings.TrimSpace (strings.ToLower ext x) = strings.ToLower ext (strings.TrimSpace x) := by
  have hp : unicode.IsSpace ∘ unicode.ToLower ext = unicode.IsSpace := funext h
  apply String.ext
  simp only [strings.TrimSpace, strings.ToLower]
  rw [List.dropWhile_map, hp, ← List.map_reverse, List.dropWhile_map, hp, ← List.map_reverse]

/-- The steps before the output step leave the output flag and the
non-interactive flag as they were. -/
theorem upToRange_frame {env : Env} {opts : options} {s5 : Session} {w w5 : World}
    (h : upToRange env opts w = .ok s5 w5) :
    s5.opts.outputFile = opts.outputFile ∧ s5.opts.nonInteractive = opts.nonInteractive := by
  obtain ⟨o, w4, h4, hr, -⟩ := upToRange_ok h
  obtain ⟨ip, t, c, rfl, -⟩ := upToChapterStart_shape h4
  obtain ⟨-, -, htime, hchap⟩ := rangeStage_ok hr
  cases hm : s5.useTime
  · obtain ⟨e, rfl, -⟩ := hchap hm
    exact ⟨rfl, rfl⟩
  · obtain ⟨rfl, -⟩ := htime hm
    exact ⟨rfl, rfl⟩

/-- C10: the output filename handed to ffmpeg as the last argument ends in
".mkv" case-insensitively: it is "output.mkv" for an empty value, the value
itself when its lower-cased form already ends in ".mkv", the value with ".mkv"
appended otherwise, and normalising twice is normalising once; the value is
the output flag or, when the flag is empty, what `prompt` returns for
"Output filename" in the world the output step is reached in; and the
normalised name is the last argument of the ffmpeg run the iteration records. -/
theorem C10_output_name (env : Env) :
    (∀ f,
      strings.HasSuffix (strings.ToLower env.lowerExt (outputName env.lowerExt f)) ".mkv" = true ∧
      (f = "" → outputName env.lowerExt f = "output.mkv") ∧
      (f ≠ "" → strings.HasSuffix (strings.ToLower env.lowerExt f) ".mkv" = true →
        outputName env.lowerExt f = f) ∧
      (f ≠ "" → strings.HasSuffix (strings.ToLower env.lowerExt f) ".mkv" = false →
        outputName env.lowerExt f = f ++ ".mkv") ∧
      outputName env.lowerExt (outputName env.lowerExt f) = outputName env.lowerExt f) ∧
    (∀ opts w s5 w5, upToRange env opts w = .ok s5 w5 →
      ∃ f w1,
        (opts.outputFile ≠ "" → f = opts.outputFile ∧ w1 = w5) ∧
        (opts.outputFile = "" →
          prompt "Output filename" opts.nonInteractive w5 = .ok f w1) ∧
        gather env opts w =
          .ok { s5 with opts := { s5.opts with outputFile := outputName env.lowerExt f } } w1 ∧
        ∀ c w2,
          audioStage env
            { s5 with opts := { s5.opts with outputFile := outputName env.lowerExt f } } w1 =
              .ok c w2 →
          ∃ args, ffmpegRuns (iteration env opts w).world.trace = ffmpegRuns w.trace ++ [args] ∧
            args = ffmpegArgs env.lowerExt
              { s5 with opts := { s5.opts with outputFile := outputName env.lowerExt f } } c ∧
            args.getLast? = some (outputName env.lowerExt f)) := by
  refine ⟨fun f => ⟨HasSuffix_outputName _ f, ?_, outputName_keep _ f, outputName_add _ f,
    outputName_idem _ f⟩, ?_⟩
  · intro hf
    rw [hf]
    exact outputName_empty _
  · intro opts w s5 w5 h5
    obtain ⟨ho, hn⟩ := upToRange_frame h5
    have hg := gather_eq_of_range h5
    refine ⟨rawOutput s5.opts w5, afterOutput s5.opts w5, ?_, ?_, hg, ?_⟩
    · intro hne
      rw [← ho] at hne ⊢
      simp [rawOutput, afterOutput, hne]
    · intro he
      rw [← ho] at he
      rw [prompt_eq, ← hn]
      simp [rawOutput, afterOutput, he]
    · intro c w2 ha
      exact ⟨_, iteration_run hg ha, rfl, ffmpegArgs_getLast _ _ c⟩

/-- C10 at concrete names and at a session whose output flag is empty: the
user types "Film" at the prompt and the ffmpeg run ends in "Film.mkv". -/
theorem C10_output_name_witness :
    outputName demoEnv.lowerExt "Film.MKV" = "Film.MKV" ∧
    outputName demoEnv.lowerExt "film" = "film.mkv" ∧
    ∃ args, ffmpegRuns (iteration demoEnv askNameOpts askNameWorld).world.trace = [args] ∧
      args.getLast? = some "Film.mkv" :=
  ⟨((C10_output_name demoEnv).1 "Film.MKV").2.2.1 (by decide) (by decide),
   ((C10_output_name demoEnv).1 "film").2.2.2.1 (by decide) (by decide),
   by
    obtain ⟨f, w1, -, hp, -, hrun⟩ := (C10_output_name demoEnv).2 askNameOpts askNameWorld
      { opts := askNameOpts, useTime := false, chapterStartInt := 1 }
      (upToRange demoEnv askNameOpts askNameWorld).world (by decide)
    have hp2 := hp rfl
    have hv : prompt "Output filename" askNameOpts.nonInteractive
        (upToRange demoEnv askNameOpts askNameWorld).world =
        .ok "Film" (gather demoEnv askNameOpts askNameWorld).world := by decide
    rw [hv] at hp2
    simp only [Res.ok.injEq] at hp2
    obtain ⟨rfl, rfl⟩ := hp2
    obtain ⟨args, h1, -, h3⟩ := hrun "ac3"
      (audioStage demoEnv
        { opts := { askNameOpts with outputFile := "Film.mkv" }, useTime := false,
          chapterStartInt := 1 }
        (gather demoEnv askNameOpts askNameWorld).world).world (by decide)
    exact ⟨args, h1, h3⟩⟩

/-- The four range option names are not `%d` renderings. -/
theorem Sprintf_d_ne_option (n : Int) :
    fmt.Sprintf_d n ≠ "-ss" ∧ fmt.Sprintf_d n ≠ "-to" ∧ fmt.Sprintf_d n ≠ "-chapter_start" ∧
      fmt.Sprintf_d n ≠ "-chapter_end" :=
  ⟨Sprintf_d_ne_of_mem n _ 's' (by decide) (by decide) (by decide),
   Sprintf_d_ne_of_mem n _ 't' (by decide) (by decide) (by decide),
   Sprintf_d_ne_of_mem n _ 'c' (by decide) (by decide) (by decide),
   Sprintf_d_ne_of_mem n _ 'c' (by decide) (by decide) (by decide)⟩

theorem outputName_ne_of_suffix (ext : Char → Char) (f t : String)
    (ht : strings.HasSuffix (strings.ToLower ext t) ".mkv" = false) : outputName ext f ≠ t := by
  intro h0
  have h := HasSuffix_outputName ext f
  rw [h0, ht] at h
  cases h

/-- The four range option names are not normalised output names. -/
theorem outputName_ne_option (ext : Char → Char) (f : String) :
    outputName ext f ≠ "-ss" ∧ outputName ext f ≠ "-to" ∧
      outputName ext f ≠ "-chapter_start" ∧ outputName ext f ≠ "-chapter_end" :=
  ⟨outputName_ne_of_suffix ext f _ rfl, outputName_ne_of_suffix ext f _ rfl,
   outputName_ne_of_suffix ext f _ rfl, outputName_ne_of_suffix ext f _ rfl⟩

/-- The shape of the composed argument list. -/
theorem ffmpegArgs_eq (ext : Char → Char) (s : Session) (c : String) :
    ffmpegArgs ext s c =
      ["-hide_banner", "-f", "dvdvideo", "-preindex", "True", "-title",
        fmt.Sprintf_d s.opts.title] ++ rangeArgs s ++
      ["-i", s.opts.inputPath, "-map", "0", "-c", "copy"] ++ audioArgs ext c ++
      [s.opts.outputFile] := rfl

theorem audioArgs_mem (ext : Char → Char) (c a : String) (h : a ∈ audioArgs ext c) :
    a ≠ "-ss" ∧ a ≠ "-to" ∧ a ≠ "-chapter_start" ∧ a ≠ "-chapter_end" := by
  unfold audioArgs at h
  split_ifs at h
  · simp only [List.mem_cons, List.mem_singleton, List.not_mem_nil, or_false] at h
    rcases h with rfl | rfl | rfl | rfl <;> decide
  · simp only [List.mem_cons, List.mem_singleton, List.not_mem_nil, or_false] at h
    rcases h with rfl | rfl <;> decide

/-- C1 (as amended): a session that reaches the composition of the arguments
puts exactly one range selection between "-title" n and "-i", and the list
composed is the one the ffmpeg run gets; time mode is chosen exactly when
chapterStart is "0" or contains ":"; in time mode the selection is "-ss" start
alone when the end time is empty and "-ss" start "-to" end when it is not, in
chapter mode it is "-chapter_start" first "-chapter_end" last; and when the
values passed through unvalidated (start time, end time, input path) do not
themselves spell the other mode's option names, the list holds none of them. -/
theorem C1_range_selection (env : Env) (opts : options) (w w1 w2 : World) (s : Session)
    (c : String) (hg : gather env opts w = .ok s w1) (ha : audioStage env s w1 = .ok c w2) :
    ffmpegRuns (iteration env opts w).world.trace =
      ffmpegRuns w.trace ++ [ffmpegArgs env.lowerExt s c] ∧
    (s.useTime = true ↔
      (s.opts.chapterStart = "0" ∨ strings.Contains s.opts.chapterStart ":" = true)) ∧
    ffmpegArgs env.lowerExt s c =
      ["-hide_banner", "-f", "dvdvideo", "-preindex", "True", "-title",
        fmt.Sprintf_d s.opts.title] ++ rangeArgs s ++
      ["-i", s.opts.inputPath, "-map", "0", "-c", "copy"] ++ audioArgs env.lowerExt c ++
      [s.opts.outputFile] ∧
    (s.useTime = true →
      (s.opts.endTime = "" → rangeArgs s = ["-ss", s.opts.startTime]) ∧
      (s.opts.endTime ≠ "" → rangeArgs s = ["-ss", s.opts.startTime, "-to", s.opts.endTime]) ∧
      "-ss" ∈ ffmpegArgs env.lowerExt s c ∧
      ((∀ v ∈ [s.opts.startTime, s.opts.endTime, s.opts.inputPath],
          v ≠ "-chapter_start" ∧ v ≠ "-chapter_end") →
        "-chapter_start" ∉ ffmpegArgs env.lowerExt s c ∧
        "-chapter_end" ∉ ffmpegArgs env.lowerExt s c)) ∧
    (s.useTime = false →
      rangeArgs s = ["-chapter_start", fmt.Sprintf_d s.chapterStartInt,
        "-chapter_end", fmt.Sprintf_d s.opts.chapterEnd] ∧
      "-chapter_start" ∈ ffmpegArgs env.lowerExt s c ∧
      "-chapter_end" ∈ ffmpegArgs env.lowerExt s c ∧
      ((s.opts.inputPath ≠ "-ss" ∧ s.opts.inputPath ≠ "-to") →
        "-ss" ∉ ffmpegArgs env.lowerExt s c ∧ "-to" ∉ ffmpegArgs env.lowerExt s c)) := by
  obtain ⟨-, -, -, -, -, -, -, -, -, hu, ⟨f, hf, -⟩, -, -⟩ := gather_facts hg
  have hT := Sprintf_d_ne_option s.opts.title
  have hS := Sprintf_d_ne_option s.chapterStartInt
  have hE := Sprintf_d_ne_option s.opts.chapterEnd
  have hO := outputName_ne_option env.lowerExt f
  rw [← hf] at hO
  have hA := audioArgs_mem env.lowerExt c
  refine ⟨iteration_run hg ha, ?_, ffmpegArgs_eq _ s c, ?_, ?_⟩
  · rw [hu]
    simp [useTimeOf]
  · intro ht
    refine ⟨?_, ?_, ?_, ?_⟩
    · intro he
      unfold rangeArgs
      simp [ht, he]
    · intro he
      unfold rangeArgs
      simp [ht, he]
    · rw [ffmpegArgs_eq]
      unfold rangeArgs
      by_cases he : s.opts.endTime = "" <;> simp [ht, he]
    · intro hv
      have h1 := hv s.opts.startTime (by simp)
      have h2 := hv s.opts.endTime (by simp)
      have h3 := hv s.opts.inputPath (by simp)
      rw [ffmpegArgs_eq]
      unfold rangeArgs
      constructor
      · intro hm
        by_cases he : s.opts.endTime = ""
        · simp [ht, he] at hm
          rcases hm with hm | hm | hm | hm | hm
          · exact hT.2.2.1 hm.symm
          · exact h1.1 hm.symm
          · exact h3.1 hm.symm
          · exact (hA _ hm).2.2.1 rfl
          · exact hO.2.2.1 hm.symm
        · simp [ht, he] at hm
          rcases hm with hm | hm | hm | hm | hm | hm
          · exact hT.2.2.1 hm.symm
          · exact h1.1 hm.symm
          · exact h2.1 hm.symm
          · exact h3.1 hm.symm
          · exact (hA _ hm).2.2.1 rfl
          · exact hO.2.2.1 hm.symm
      · intro hm
        by_cases he : s.opts.endTime = ""
        · simp [ht, he] at hm
          rcases hm with hm | hm | hm | hm | hm
          · exact hT.2.2.2 hm.symm
          · exact h1.2 hm.symm
          · exact h3.2 hm.symm
          · exact (hA _ hm).2.2.2 rfl
          · exact hO.2.2.2 hm.symm
        · simp [ht, he] at hm
          rcases hm with hm | hm | hm | hm | hm | hm
          · exact hT.2.2.2 hm.symm
          · exact h1.2 hm.symm
          · exact h2.2 hm.symm
          · exact h3.2 hm.symm
          · exact (hA _ hm).2.2.2 rfl
          · exact hO.2.2.2 hm.symm
  · intro ht
    refine ⟨?_, ?_, ?_, ?_⟩
    · unfold rangeArgs
      simp [ht]
    · rw [ffmpegArgs_eq]
      unfold rangeArgs
      simp [ht]
    · rw [ffmpegArgs_eq]
      unfold rangeArgs
      simp [ht]
    · intro hv
      rw [ffmpegArgs_eq]
      unfold rangeArgs
      constructor
      · intro hm
        simp [ht] at hm
        rcases hm with hm | hm | hm | hm | hm | hm
        · exact hT.1 hm.symm
        · exact hS.1 hm.symm
        · exact hE.1 hm.symm
        · exact hv.1 hm.symm
        · exact (hA _ hm).1 rfl
        · exact hO.1 hm.symm
      · intro hm
        simp [ht] at hm
        rcases hm with hm | hm | hm | hm | hm | hm
        · exact hT.2.1 hm.symm
        · exact hS.2.1 hm.symm
        · exact hE.2.1 hm.symm
        · exact hv.2 hm.symm
        · exact (hA _ hm).2.1 rfl
        · exact hO.2.1 hm.symm

/-- C1 at two concrete sessions: a chapter-mode one, and a time-mode one with
an end time, whose selection is "-ss" start "-to" end. -/
theorem C1_range_selection_witness :
    gather demoEnv batchOpts emptyWorld =
      .ok batchSession (gather demoEnv batchOpts emptyWorld).world ∧
    rangeArgs batchSession = ["-chapter_start", "2", "-chapter_end", "1"] ∧
    "-ss" ∉ ffmpegArgs demoEnv.lowerExt batchSession "ac3" ∧
    gather demoEnv timeOpts emptyWorld =
      .ok timeSession (gather demoEnv timeOpts emptyWorld).world ∧
    rangeArgs timeSession = ["-ss", "00:00:00", "-to", "0:10:00"] ∧
    ffmpegRuns (iteration demoEnv timeOpts emptyWorld).world.trace =
      [ffmpegArgs demoEnv.lowerExt timeSession "ac3"] :=
  ⟨by decide,
   ((C1_range_selection demoEnv batchOpts emptyWorld (gather demoEnv batchOpts emptyWorld).world
      (audioStage demoEnv batchSession (gather demoEnv batchOpts emptyWorld).world).world
      batchSession "ac3" (by decide) (by decide)).2.2.2.2 (by decide)).1,
   (((C1_range_selection demoEnv batchOpts emptyWorld (gather demoEnv batchOpts emptyWorld).world
      (audioStage demoEnv batchSession (gather demoEnv batchOpts emptyWorld).world).world
      batchSession "ac3" (by decide) (by decide)).2.2.2.2 (by decide)).2.2.2 (by decide)).1,
   by decide,
   ((C1_range_selection demoEnv timeOpts emptyWorld (gather demoEnv timeOpts emptyWorld).world
      (audioStage demoEnv timeSession (gather demoEnv timeOpts emptyWorld).world).world
      timeSession "ac3" (by decide) (by decide)).2.2.2.1 (by decide)).2.1 (by decide),
   (C1_range_selection demoEnv timeOpts emptyWorld (gather demoEnv timeOpts emptyWorld).world
      (audioStage demoEnv timeSession (gather demoEnv timeOpts emptyWorld).world).world
      timeSession "ac3" (by decide) (by decide)).1⟩

/-- C1 as stated fails: with chapterStart "0" (time mode) and the start time
"-chapter_start", the argument list of the ffmpeg run contains "-ss" and also
"-chapter_start". -/
theorem C1_counterexample :
    slipOpts.chapterStart = "0" ∧
    ffmpegRuns (iteration demoEnv slipOpts emptyWorld).world.trace =
      [["-hide_banner", "-f", "dvdvideo", "-preindex", "True", "-title", "1", "-ss",
        "-chapter_start", "-i", "disc.iso", "-map", "0", "-c", "copy", "-c:a", "copy",
        "output.mkv"]] ∧
    ∃ args ∈ ffmpegRuns (iteration demoEnv slipOpts emptyWorld).world.trace,
      "-ss" ∈ args ∧ "-chapter_start" ∈ args := by
  decide

theorem audioStage_cases (env : Env) (s : Session) (w : World) :
    (∃ c w1, audioStage env s w = .ok c w1 ∧ Quiet w w1) ∨
    (∃ m w1, audioStage env s w = .fatal m w1 ∧ Quiet w w1) := by
  have q := audioStage_quiet env s w
  cases h : audioStage env s w with
  | ok c w1 => rw [h] at q; exact Or.inl ⟨c, w1, rfl, q⟩
  | fatal m w1 => rw [h] at q; exact Or.inr ⟨m, w1, rfl, q⟩
  | done w1 =>
    rw [audioStage_eq] at h
    split at h
    · cases h
    · split_ifs at h

theorem rangeStage_cases (env : Env) (o : options) (w : World) :
    (∃ s w1, rangeStage env o w = .ok s w1 ∧ Quiet w w1) ∨
    (∃ m w1, rangeStage env o w = .fatal m w1 ∧ Quiet w w1 ∧ useTimeOf o.chapterStart = false ∧
      (fmt.Sscanf_d o.chapterStart 0 ≤ 0 ∨ o.chapterEnd < 0 ∨
        (o.chapterEnd = 0 ∧ (answer o.nonInteractive w = "" ∨
          fmt.Sscanf_d (answer o.nonInteractive w) 0 ≤ 0)))) := by
  rw [rangeStage_eq]
  split_ifs with hu
  · exact Or.inl ⟨_, _, rfl, afterTime_quiet _ _⟩
  · rcases chapterStage_cases o w with ⟨e, w1, h, -, -, -, -, q⟩ | ⟨m, w1, h, q, hc⟩
    · exact Or.inl ⟨_, _, h, q⟩
    · exact Or.inr ⟨m, w1, h, q, by simpa using hu, hc⟩

theorem titleStage_sound (o : options) (w : World) :
    Quiet w (titleStage o w).world ∧ ∀ w1, titleStage o w ≠ .done w1 := by
  rcases titleStage_cases o w with ⟨t, w1, h, -, -, -, q⟩ | ⟨m, w1, h, q, -⟩ <;>
    rw [h] <;> exact ⟨q, fun _ hh => by cases hh⟩

theorem chapterStartStage_sound (o : options) (w : World) :
    Quiet w (chapterStartStage o w).world ∧ ∀ w1, chapterStartStage o w ≠ .done w1 := by
  rcases chapterStartStage_cases o w with ⟨t, w1, h, -, -, -, q⟩ | ⟨w1, h, q, -⟩ <;>
    rw [h] <;> exact ⟨q, fun _ hh => by cases hh⟩

theorem rangeStage_sound (env : Env) (o : options) (w : World) :
    Quiet w (rangeStage env o w).world ∧ ∀ w1, rangeStage env o w ≠ .done w1 := by
  rcases rangeStage_cases env o w with ⟨t, w1, h, q⟩ | ⟨m, w1, h, q, -⟩ <;>
    rw [h] <;> exact ⟨q, fun _ hh => by cases hh⟩

theorem listStage_sound (env : Env) (opts : options) (w : World) :
    Quiet w (listStage env opts w).world ∧
      ∀ w1, listStage env opts w = .done w1 → opts.listOnly = true := by
  rcases listStage_cases env opts w with
    ⟨ip, w2, h, -, -, -, q⟩ | ⟨w2, h, -, -, q⟩ | ⟨w2, h, hl, q⟩
  · rw [h]; exact ⟨q, fun _ hh => by cases hh⟩
  · rw [h]; exact ⟨q, fun _ hh => by cases hh⟩
  · rw [h]; exact ⟨q, fun _ _ => hl⟩

/-- One iteration ends in `fatal` before any ffmpeg run, or returns after the
title list of a `-list` call, or reaches the composition of the arguments and
records exactly the ffmpeg run composed there. -/
theorem iteration_cases (env : Env) (opts : options) (w : World) :
    (∃ m w1, iteration env opts w = .fatal m w1 ∧ Quiet w w1) ∨
    (∃ w1, iteration env opts w = .done w1 ∧ Quiet w w1 ∧ opts.listOnly = true) ∨
    (∃ s w1 c w2, gather env opts w = .ok s w1 ∧ audioStage env s w1 = .ok c w2 ∧
      ffmpegRuns (iteration env opts w).world.trace =
        ffmpegRuns w.trace ++ [ffmpegArgs env.lowerExt s c]) := by
  have s1 := listStage_sound env opts w
  cases h1 : listStage env opts w with
  | fatal m w2 =>
    rw [h1] at s1
    exact Or.inl ⟨m, w2, iteration_of_listStage_fatal h1, s1.1⟩
  | done w2 =>
    rw [h1] at s1
    exact Or.inr (Or.inl ⟨w2, iteration_of_listStage_done h1, s1.1, s1.2 w2 rfl⟩)
  | ok o1 w2 =>
    rw [h1] at s1
    have q1 : Quiet w w2 := s1.1
    have s2 := titleStage_sound o1 w2
    cases h2 : titleStage o1 w2 with
    | fatal m w3 =>
      rw [h2] at s2
      exact Or.inl ⟨m, w3, iteration_of_titleStage_fatal h1 h2, q1.trans s2.1⟩
    | done w3 => exact absurd h2 (s2.2 w3)
    | ok o2 w3 =>
      rw [h2] at s2
      have q2 : Quiet w w3 := q1.trans s2.1
      have hT : upToTitle env opts w = .ok o2 w3 := by
        simp only [upToTitle, bind_apply, h1]
        exact h2
      have s3 := chapterStartStage_sound o2 w3
      cases h3 : chapterStartStage o2 w3 with
      | fatal m w4 =>
        rw [h3] at s3
        exact Or.inl ⟨m, w4, iteration_of_chapterStartStage_fatal hT h3, q2.trans s3.1⟩
      | done w4 => exact absurd h3 (s3.2 w4)
      | ok o3 w4 =>
        rw [h3] at s3
        have q3 : Quiet w w4 := q2.trans s3.1
        have hC : upToChapterStart env opts w = .ok o3 w4 := by
          simp only [upToChapterStart, bind_apply, hT]
          exact h3
        have s4 := rangeStage_sound env o3 w4
        cases h4 : rangeStage env o3 w4 with
        | fatal m w5 =>
          rw [h4] at s4
          exact Or.inl ⟨m, w5, iteration_of_rangeStage_fatal hC h4, q3.trans s4.1⟩
        | done w5 => exact absurd h4 (s4.2 w5)
        | ok s w5 =>
          rw [h4] at s4
          have hR : upToRange env opts w = .ok s w5 := by
            simp only [upToRange, bind_apply, hC]
            exact h4
          have hG := gather_eq_of_range hR
          have qG : Quiet w (afterOutput s.opts w5) :=
            (q3.trans s4.1).trans (afterOutput_quiet _ _)
          rcases audioStage_cases env _ (afterOutput s.opts w5) with
            ⟨c, w6, h5, q5⟩ | ⟨m, w6, h5, q5⟩
          · exact Or.inr (Or.inr ⟨_, _, c, w6, hG, h5, iteration_run hG h5⟩)
          · refine Or.inl ⟨m, w6, ?_, qG.trans q5⟩
            simp only [iteration, bind_apply, hG, h5]

/-- A title number that is zero or negative after the title prompt ends the
iteration in `fatal`. -/
theorem fatal_of_bad_title {env : Env} {opts o : options} {w w2 : World}
    (h1 : listStage env opts w = .ok o w2)
    (hb : o.title < 0 ∨ (o.title = 0 ∧ fmt.Sscanf_d (answer o.nonInteractive w2) 0 ≤ 0)) :
    ∃ msg w3, iteration env opts w = .fatal msg w3 ∧ Quiet w w3 := by
  have q1 : Quiet w w2 := by
    have := (listStage_sound env opts w).1
    rw [h1] at this
    exact this
  rcases titleStage_cases o w2 with ⟨t, w3, h2, ht, a, b, -⟩ | ⟨m, w3, h2, q2, -⟩
  · exfalso
    rcases hb with hb | ⟨hb, hs⟩
    · have := a (by omega)
      omega
    · have := (b hb).1
      omega
  · exact ⟨m, w3, iteration_of_titleStage_fatal h1 h2, q1.trans q2⟩

/-- A chapter number that is zero or negative ends the iteration in `fatal`. -/
theorem fatal_of_bad_chapter {env : Env} {opts o : options} {w w4 : World}
    (h1 : upToChapterStart env opts w = .ok o w4) (hu : useTimeOf o.chapterStart = false)
    (hb : fmt.Sscanf_d o.chapterStart 0 ≤ 0 ∨ o.chapterEnd < 0 ∨
      (o.chapterEnd = 0 ∧ fmt.Sscanf_d (answer o.nonInteractive w4) 0 ≤ 0)) :
    ∃ msg w5, iteration env opts w = .fatal msg w5 ∧ Quiet w w5 := by
  obtain ⟨-, -, -, -, -, -, -, -, -, q1⟩ := upToChapterStart_ok h1
  have hr : rangeStage env o w4 = chapterStage o w4 := by
    rw [rangeStage_eq, hu]
    simp
  rcases chapterStage_cases o w4 with ⟨e, w5, h2, hs, he, a, b, -⟩ | ⟨m, w5, h2, q2, -⟩
  · exfalso
    rcases hb with hb | hb | ⟨hb, hs2⟩
    · omega
    · have := (a (by omega)).1
      omega
    · have := (b hb).1
      omega
  · exact ⟨m, w5, iteration_of_rangeStage_fatal h1 (hr.trans h2), q1.trans q2⟩

/-- A negative title flag of a call that is not list-only ends the iteration
in `fatal`. -/
theorem fatal_of_negative_title {env : Env} {opts : options} {w : World}
    (hl : opts.listOnly = false) (hb : opts.title < 0) :
    ∃ msg w1, iteration env opts w = .fatal msg w1 ∧ Quiet w w1 := by
  rcases iteration_cases env opts w with ⟨m, w1, h, q⟩ | ⟨w1, -, -, hl2⟩ | ⟨s, w1, c, w2, hg, -, -⟩
  · exact ⟨m, w1, h, q⟩
  · rw [hl] at hl2; cases hl2
  · exfalso
    obtain ⟨-, -, -, -, -, ht, ht2, -⟩ := gather_facts hg
    have := ht2 (by omega)
    omega

/-- A first or last chapter flag that is zero or negative, in a chapter-mode
call that is not list-only, ends the iteration in `fatal`. -/
theorem fatal_of_bad_chapter_flag {env : Env} {opts : options} {w : World}
    (hl : opts.listOnly = false) (hc : opts.chapterStart ≠ "")
    (hu : useTimeOf opts.chapterStart = false)
    (hb : fmt.Sscanf_d opts.chapterStart 0 ≤ 0 ∨ opts.chapterEnd < 0) :
    ∃ msg w1, iteration env opts w = .fatal msg w1 ∧ Quiet w w1 := by
  rcases iteration_cases env opts w with ⟨m, w1, h, q⟩ | ⟨w1, -, -, hl2⟩ | ⟨s, w1, c, w2, hg, -, -⟩
  · exact ⟨m, w1, h, q⟩
  · rw [hl] at hl2; cases hl2
  · exfalso
    obtain ⟨-, -, -, -, -, -, -, -, hcs, hut, -, -, hch⟩ := gather_facts hg
    have hcs2 := hcs hc
    rw [hcs2, hu] at hut
    obtain ⟨h1, h2, h3, h4, -⟩ := hch hut
    rw [hcs2] at h1
    rcases hb with hb | hb
    · omega
    · have := h4 (by omega)
      omega

/-- C2 (as amended): an iteration that reaches the ffmpeg invocation passes a
positive title number and, in chapter mode, positive first and last chapter
numbers as "-chapter_start" and "-chapter_end"; a title number that is zero or
negative when the title check is reached, and in chapter mode a first or last
chapter number that is zero or negative, ends in `fatal` before any ffmpeg
run; for flag values this holds of every call that is not list-only. -/
theorem C2_positive_numbers (env : Env) (opts : options) (w : World) :
    (ffmpegRuns (iteration env opts w).world.trace ≠ ffmpegRuns w.trace →
      ∃ s w1 c w2, gather env opts w = .ok s w1 ∧ audioStage env s w1 = .ok c w2 ∧
        ffmpegRuns (iteration env opts w).world.trace =
          ffmpegRuns w.trace ++ [ffmpegArgs env.lowerExt s c] ∧
        ffmpegArgs env.lowerExt s c =
          ["-hide_banner", "-f", "dvdvideo", "-preindex", "True", "-title",
            fmt.Sprintf_d s.opts.title] ++ rangeArgs s ++
          ["-i", s.opts.inputPath, "-map", "0", "-c", "copy"] ++ audioArgs env.lowerExt c ++
          [s.opts.outputFile] ∧
        0 < s.opts.title ∧
        (s.useTime = false →
          rangeArgs s = ["-chapter_start", fmt.Sprintf_d s.chapterStartInt,
            "-chapter_end", fmt.Sprintf_d s.opts.chapterEnd] ∧
          0 < s.chapterStartInt ∧ 0 < s.opts.chapterEnd)) ∧
    (∀ s w1, gather env opts w = .ok s w1 →
      0 < s.opts.title ∧ (s.useTime = false → 0 < s.chapterStartInt ∧ 0 < s.opts.chapterEnd)) ∧
    (∀ o w2, listStage env opts w = .ok o w2 →
      (o.title < 0 ∨ (o.title = 0 ∧ fmt.Sscanf_d (answer o.nonInteractive w2) 0 ≤ 0)) →
      ∃ msg w3, iteration env opts w = .fatal msg w3 ∧ Quiet w w3) ∧
    (∀ o w4, upToChapterStart env opts w = .ok o w4 → useTimeOf o.chapterStart = false →
      (fmt.Sscanf_d o.chapterStart 0 ≤ 0 ∨ o.chapterEnd < 0 ∨
        (o.chapterEnd = 0 ∧ fmt.Sscanf_d (answer o.nonInteractive w4) 0 ≤ 0)) →
      ∃ msg w5, iteration env opts w = .fatal msg w5 ∧ Quiet w w5) ∧
    (opts.listOnly = false → opts.title < 0 →
      ∃ msg w1, iteration env opts w = .fatal msg w1 ∧ Quiet w w1) ∧
    (opts.listOnly = false → opts.chapterStart ≠ "" → useTimeOf opts.chapterStart = false →
      (fmt.Sscanf_d opts.chapterStart 0 ≤ 0 ∨ opts.chapterEnd < 0) →
      ∃ msg w1, iteration env opts w = .fatal msg w1 ∧ Quiet w w1) := by
  have hpos : ∀ s w1, gather env opts w = .ok s w1 →
      0 < s.opts.title ∧ (s.useTime = false → 0 < s.chapterStartInt ∧ 0 < s.opts.chapterEnd) := by
    intro s w1 hg
    obtain ⟨-, -, -, -, -, ht, -, -, -, -, -, -, hc⟩ := gather_facts hg
    exact ⟨ht, fun hu => ⟨(hc hu).2.1, (hc hu).2.2.1⟩⟩
  refine ⟨?_, hpos, fun o w2 h hb => fatal_of_bad_title h hb,
    fun o w4 h hu hb => fatal_of_bad_chapter h hu hb,
    fun hl hb => fatal_of_negative_title hl hb,
    fun hl hc hu hb => fatal_of_bad_chapter_flag hl hc hu hb⟩
  intro hne
  rcases iteration_cases env opts w with ⟨m, w1, h, q⟩ | ⟨w1, h, q, -⟩ | ⟨s, w1, c, w2, hg, ha, hr⟩
  · rw [h] at hne; exact absurd q hne
  · rw [h] at hne; exact absurd q hne
  · refine ⟨s, w1, c, w2, hg, ha, hr, ffmpegArgs_eq _ s c, (hpos s w1 hg).1, fun hu => ⟨?_, (hpos s w1 hg).2 hu⟩⟩
    unfold rangeArgs
    simp [hu]

/-- C2 (as amended) at concrete sessions: the batch session passes positive
numbers, a title of -1 ends in `fatal` with no ffmpeg run, and so does "0"
typed as the last chapter. -/
theorem C2_positive_numbers_witness :
    (0 < batchSession.opts.title ∧
      (batchSession.useTime = false →
        0 < batchSession.chapterStartInt ∧ 0 < batchSession.opts.chapterEnd)) ∧
    (∃ msg w3, iteration demoEnv negTitleOpts emptyWorld = .fatal msg w3 ∧
      Quiet emptyWorld w3) ∧
    (∃ msg w5, iteration demoEnv zeroEndOpts zeroEndWorld = .fatal msg w5 ∧
      Quiet zeroEndWorld w5) :=
  ⟨(C2_positive_numbers demoEnv batchOpts emptyWorld).2.1 batchSession
      (gather demoEnv batchOpts emptyWorld).world (by decide),
   (C2_positive_numbers demoEnv negTitleOpts emptyWorld).2.2.2.2.1 (by decide) (by decide),
   (C2_positive_numbers demoEnv zeroEndOpts zeroEndWorld).2.2.2.1 zeroEndOpts
      (upToChapterStart demoEnv zeroEndOpts zeroEndWorld).world (by decide) (by decide)
      (Or.inr (Or.inr ⟨by decide, by decide⟩))⟩

/-- C2 as stated fails: a chapter number that is negative does not always end
in `fatal`.  With the first chapter "0" (time mode) and the last chapter -5
the session runs ffmpeg and returns; and with `-list` a title number of -1
is never looked at: the call returns without `fatal`. -/
theorem C2_counterexample :
    negEndOpts.chapterEnd = -5 ∧
    iteration demoEnv negEndOpts emptyWorld =
      .done (iteration demoEnv negEndOpts emptyWorld).world ∧
    ffmpegRuns (iteration demoEnv negEndOpts emptyWorld).world.trace =
      [["-hide_banner", "-f", "dvdvideo", "-preindex", "True", "-title", "1", "-ss",
        "00:00:00", "-to", "0:10:00", "-i", "disc.iso", "-map", "0", "-c", "copy", "-c:a",
        "copy", "output.mkv"]] ∧
    negTitleListOpts.title = -1 ∧
    iteration demoEnv negTitleListOpts emptyWorld =
      .done (iteration demoEnv negTitleListOpts emptyWorld).world := by
  decide

theorem sessionLoop_of_fatal {env : Env} {opts : options} {w w1 : World} {m : String}
    (h : iteration env opts w = .fatal m w1) (fuel : Nat) :
    sessionLoop env (fuel + 1) opts w = some (.fatal m w1) := by
  simp only [sessionLoop, h]

theorem startup_eq (env : Env) (w : World) :
    startup env w =
      if env.lookPath "ffprobe" = false then
        .fatal "ffprobe not found in PATH" (w.log (headerEvents ++ fatalEvents "ffprobe not found in PATH"))
      else if env.lookPath "ffmpeg" = false then
        .fatal "ffmpeg not found in PATH" (w.log (headerEvents ++ fatalEvents "ffmpeg not found in PATH"))
      else
        .ok () (w.log headerEvents) := by
  unfold startup printHeader ensureExecutable
  cases h1 : env.lookPath "ffprobe" <;> cases h2 : env.lookPath "ffmpeg" <;>
    simp [println_eq, fatal, fatalEvents, World.log, headerEvents]

/-- A failed duration probe ends the loop of the title list at once. -/
theorem printTitleListLoop_of_duration_error (env : Env) (ip : String) (n : Nat) (t : Int)
    (found : Bool) (w : World) (err : String)
    (h : env.capture w.trace "ffprobe" (titleDurationArgs ip t) = .error err) :
    printTitleListLoop env ip (n + 1) t found w =
      .ok found (w.log [.exec "ffprobe" (titleDurationArgs ip t)]) := by
  unfold printTitleListLoop getTitleDuration
  simp [runCommandCapture_eq, h, World.log]

/-- A failed chapter probe gives the count 0, which is printed, and the loop
goes on with the next title. -/
theorem printTitleListLoop_of_chapter_error (env : Env) (ip : String) (n : Nat) (t : Int)
    (found : Bool) (w : World) (out err : String)
    (h1 : env.capture w.trace "ffprobe" (titleDurationArgs ip t) = .ok out)
    (h2 : strings.TrimSpace out ≠ "")
    (h3 : env.capture (w.trace ++ [.exec "ffprobe" (titleDurationArgs ip t)]) "ffprobe"
      (chapterCountArgs ip t) = .error err) :
    printTitleListLoop env ip (n + 1) t found w =
      printTitleListLoop env ip n (t + 1) true
        (w.log [.exec "ffprobe" (titleDurationArgs ip t),
          .exec "ffprobe" (chapterCountArgs ip t),
          .stdout ("  Title " ++ fmt.Sprintf_d t ++ " - Chapters: " ++ "00" ++ " (" ++
            (if strings.EqualFold_NA (strings.TrimSpace out) then "00:00:00"
             else strings.TrimSpace out) ++ ")\n")]) := by
  have h0 : fmt.Sprintf_02d 0 = "00" := by decide
  conv_lhs => unfold printTitleListLoop getTitleDuration getChapterCount
  simp [runCommandCapture_eq, h1, h2, h3, World.log, emit, h0]

/-- The title list: two heading lines, the loop over the titles, the line
"No titles found." when the loop found none, and an empty line. -/
theorem printTitleList_eq (env : Env) (ip : String) (w : World) (found : Bool) (w1 : World)
    (h : printTitleListLoop env ip 99 1 false
      (w.log [.stdout "\n", .stdout (colorYellow ++ "Title list:" ++ colorReset ++ "\n")]) =
        .ok found w1) :
    printTitleList env ip w =
      .ok () (w1.log ((if found then [] else [.stdout "  No titles found.\n"]) ++
        [.stdout "\n"])) := by
  have h0 : ("" : String) ++ "\n" = "\n" := by decide
  unfold printTitleList
  simp only [World.log] at h
  simp only [bind_apply, println_eq, h0, List.append_assoc, List.singleton_append]
  rw [h]
  cases found <;> simp [println_eq, World.log]

/-- After the title list the iteration goes on with the title step (or
returns, with `-list`). -/
theorem listStage_of_printTitleList (env : Env) (opts o : options) (w w1 w2 : World)
    (h1 : inputStage env opts w = .ok o w1) (h2 : printTitleList env o.inputPath w1 = .ok () w2) :
    listStage env opts w = (if o.listOnly then .done w2 else .ok o w2) ∧
    (o.listOnly = true → iteration env opts w = .done w2) ∧
    (o.listOnly = false → upToTitle env opts w = titleStage o w2) := by
  have h : listStage env opts w = if o.listOnly then .done w2 else .ok o w2 := by
    unfold listStage
    simp only [bind_apply, h1, h2]
    cases o.listOnly <;> simp [returnMain]
  refine ⟨h, ?_, ?_⟩
  · intro hl
    rw [hl] at h
    exact iteration_of_listStage_done h
  · intro hl
    rw [hl] at h
    simp only [upToTitle, bind_apply, h]
    rfl

/-- C3 (as amended): a missing executable, a failed audio-codec probe and a
failed ffmpeg run each end the process at once in `fatal` with the message
printed, and nothing is done after the failure.  Inside `printTitleList` a
failed duration probe ends the loop over the titles with nothing probed or
printed after it, a failed chapter probe is shown as the count 00 and the loop
goes on with the next title; `printTitleList` then prints its closing lines
and always goes on, without any ffmpeg run, and the iteration continues after
it with the title step (or returns, with `-list`). -/
theorem C3_failures_are_fatal (env : Env) :
    (∀ flags positional fuel w,
      (env.lookPath "ffprobe" = false ∨ env.lookPath "ffmpeg" = false) →
      ∃ name, (name = "ffprobe" ∨ name = "ffmpeg") ∧ env.lookPath name = false ∧
        main env flags positional fuel w =
          some (.fatal (name ++ " not found in PATH")
            (w.log (headerEvents ++ fatalEvents (name ++ " not found in PATH"))))) ∧
    (∀ opts w s w1 err fuel, gather env opts w = .ok s w1 →
      env.capture (w1.trace ++ [.stdout "\n", .stdout "Analyzing audio codec...\n"]) "ffprobe"
        (audioProbeArgs s.opts.inputPath s.opts.title) = .error err →
      sessionLoop env (fuel + 1) opts w =
        some (.fatal err (w1.log ([.stdout "\n", .stdout "Analyzing audio codec...\n",
           .exec "ffprobe" (audioProbeArgs s.opts.inputPath s.opts.title)] ++ fatalEvents err)))) ∧
    (∀ opts w s w1 c w2 err fuel, gather env opts w = .ok s w1 →
      audioStage env s w1 = .ok c w2 →
      env.run (w2.trace ++ [.stdout "\n", .stdout "Remuxing file...\n"]) "ffmpeg"
        (ffmpegArgs env.lowerExt s c) = some err →
      sessionLoop env (fuel + 1) opts w =
        some (.fatal err (w2.log ([.stdout "\n", .stdout "Remuxing file...\n",
           .exec "ffmpeg" (ffmpegArgs env.lowerExt s c)] ++ fatalEvents err)))) ∧
    (∀ inputPath w, ∃ w1, printTitleList env inputPath w = .ok () w1 ∧ Quiet w w1) ∧
    (∀ inputPath n title found w err,
      env.capture w.trace "ffprobe" (titleDurationArgs inputPath title) = .error err →
      printTitleListLoop env inputPath (n + 1) title found w =
        .ok found (w.log [.exec "ffprobe" (titleDurationArgs inputPath title)])) ∧
    (∀ inputPath n title found w out err,
      env.capture w.trace "ffprobe" (titleDurationArgs inputPath title) = .ok out →
      strings.TrimSpace out ≠ "" →
      env.capture (w.trace ++ [.exec "ffprobe" (titleDurationArgs inputPath title)]) "ffprobe"
        (chapterCountArgs inputPath title) = .error err →
      printTitleListLoop env inputPath (n + 1) title found w =
        printTitleListLoop env inputPath n (title + 1) true
          (w.log [.exec "ffprobe" (titleDurationArgs inputPath title),
            .exec "ffprobe" (chapterCountArgs inputPath title),
            .stdout ("  Title " ++ fmt.Sprintf_d title ++ " - Chapters: " ++ "00" ++ " (" ++
              (if strings.EqualFold_NA (strings.TrimSpace out) then "00:00:00"
               else strings.TrimSpace out) ++ ")\n")])) ∧
    (∀ inputPath w found w1,
      printTitleListLoop env inputPath 99 1 false
        (w.log [.stdout "\n", .stdout (colorYellow ++ "Title list:" ++ colorReset ++ "\n")]) =
          .ok found w1 →
      printTitleList env inputPath w =
        .ok () (w1.log ((if found then [] else [.stdout "  No titles found.\n"]) ++
          [.stdout "\n"]))) ∧
    (∀ opts o w w1 w2, inputStage env opts w = .ok o w1 →
      printTitleList env o.inputPath w1 = .ok () w2 →
      listStage env opts w = (if o.listOnly then .done w2 else .ok o w2) ∧
      (o.listOnly = true → iteration env opts w = .done w2) ∧
      (o.listOnly = false → upToTitle env opts w = titleStage o w2)) := by
  refine ⟨?_, ?_, ?_, ?_, printTitleListLoop_of_duration_error env,
    printTitleListLoop_of_chapter_error env, printTitleList_eq env,
    listStage_of_printTitleList env⟩
  · intro flags positional fuel w h
    unfold main
    rw [startup_eq]
    by_cases h1 : env.lookPath "ffprobe" = false
    · exact ⟨"ffprobe", Or.inl rfl, h1, by simp [h1]⟩
    · have h2 : env.lookPath "ffmpeg" = false := by
        rcases h with h | h
        · exact absurd h h1
        · exact h
      exact ⟨"ffmpeg", Or.inr rfl, h2, by simp [h1, h2]⟩
  · intro opts w s w1 err fuel hg hc
    apply sessionLoop_of_fatal
    simp only [iteration, bind_apply, hg, audioStage_eq, hc]
    simp [World.log]
  · intro opts w s w1 c w2 err fuel hg ha hr
    apply sessionLoop_of_fatal
    simp only [iteration, bind_apply, hg, ha, remuxStage_eq, hr]
    simp [World.log]
  · intro inputPath w
    obtain ⟨u, w1, h, q⟩ := Calm.printTitleList env inputPath w
    exact ⟨w1, h, q⟩

/-- C3 (as amended) at concrete failures: no ffmpeg on the machine, a failing
audio probe, a failing remux; and, in the title list, a failing chapter probe
of title 1 followed by a failing duration probe of title 2. -/
theorem C3_failures_are_fatal_witness :
    (∃ name, (name = "ffprobe" ∨ name = "ffmpeg") ∧ noToolEnv.lookPath name = false ∧
      main noToolEnv batchOpts [] 3 emptyWorld =
        some (.fatal (name ++ " not found in PATH")
          (emptyWorld.log (headerEvents ++ fatalEvents (name ++ " not found in PATH"))))) ∧
    (∃ w1, sessionLoop noAudioEnv 1 batchOpts emptyWorld = some (.fatal "exit status 1" w1)) ∧
    (∃ w1, sessionLoop noRemuxEnv 1 batchOpts emptyWorld = some (.fatal "exit status 1" w1)) ∧
    printTitleListLoop flakyEnv "disc.iso" 99 1 false emptyWorld =
      printTitleListLoop flakyEnv "disc.iso" 98 2 true
        (emptyWorld.log [.exec "ffprobe" (titleDurationArgs "disc.iso" 1),
          .exec "ffprobe" (chapterCountArgs "disc.iso" 1),
          .stdout "  Title 1 - Chapters: 00 (0:42:10.5)\n"]) ∧
    printTitleListLoop flakyEnv "disc.iso" 98 2 true emptyWorld =
      .ok true (emptyWorld.log [.exec "ffprobe" (titleDurationArgs "disc.iso" 2)]) :=
  ⟨(C3_failures_are_fatal noToolEnv).1 batchOpts [] 3 emptyWorld (Or.inr rfl),
   ⟨_, (C3_failures_are_fatal noAudioEnv).2.1 batchOpts emptyWorld batchSession
      (gather noAudioEnv batchOpts emptyWorld).world "exit status 1" 0 (by decide) rfl⟩,
   ⟨_, (C3_failures_are_fatal noRemuxEnv).2.2.1 batchOpts emptyWorld batchSession
      (gather noRemuxEnv batchOpts emptyWorld).world "ac3"
      (audioStage noRemuxEnv batchSession (gather noRemuxEnv batchOpts emptyWorld).world).world
      "exit status 1" 0 (by decide) (by decide) rfl⟩,
   (C3_failures_are_fatal flakyEnv).2.2.2.2.2.1 "disc.iso" 98 1 false emptyWorld "0:42:10.5\n"
      "exit status 1" rfl (by decide) rfl,
   (C3_failures_are_fatal flakyEnv).2.2.2.2.1 "disc.iso" 97 2 true emptyWorld
      "exit status 1" rfl⟩

/-- C3 as stated fails: on this disc the chapter-count probe of title 1 and
the duration probe of title 2 both fail inside `printTitleList`, and the
session still goes on to the audio probe and the remux and returns normally. -/
theorem C3_counterexample :
    (∀ tr, flakyEnv.capture tr "ffprobe"
      ["-v", "error", "-hide_banner", "-f", "dvdvideo", "-preindex", "True", "-title", "1",
       "-show_chapters", "-show_entries", "chapter=index", "-of", "csv=p=0", "disc.iso"] =
        .error "exit status 1") ∧
    (∀ tr, flakyEnv.capture tr "ffprobe"
      ["-v", "error", "-hide_banner", "-f", "dvdvideo", "-preindex", "True", "-title", "2",
       "-show_entries", "format=duration", "-sexagesimal", "-of",
       "default=noprint_wrappers=1:nokey=1", "disc.iso"] = .error "exit status 1") ∧
    iteration flakyEnv batchOpts emptyWorld = .done
      { stdin := [], keys := [],
        trace :=
          [Event.stdout "\n",
           Event.stdout "\x1b[93mTitle list:\x1b[0m\n",
           Event.exec "ffprobe"
             ["-v", "error", "-hide_banner", "-f", "dvdvideo", "-preindex", "True", "-title", "1",
              "-show_entries", "format=duration", "-sexagesimal", "-of",
              "default=noprint_wrappers=1:nokey=1", "disc.iso"],
           Event.exec "ffprobe"
             ["-v", "error", "-hide_banner", "-f", "dvdvideo", "-preindex", "True", "-title", "1",
              "-show_chapters", "-show_entries", "chapter=index", "-of", "csv=p=0", "disc.iso"],
           Event.stdout "  Title 1 - Chapters: 00 (0:42:10.5)\n",
           Event.exec "ffprobe"
             ["-v", "error", "-hide_banner", "-f", "dvdvideo", "-preindex", "True", "-title", "2",
              "-show_entries", "format=duration", "-sexagesimal", "-of",
              "default=noprint_wrappers=1:nokey=1", "disc.iso"],
           Event.stdout "\n",
           Event.stdout "\n",
           Event.stdout "Analyzing audio codec...\n",
           Event.exec "ffprobe"
             ["-v", "error", "-hide_banner", "-f", "dvdvideo", "-preindex", "True", "-title", "1",
              "-select_streams", "a:0", "-show_entries", "stream=codec_name", "-of",
              "default=noprint_wrappers=1:nokey=1", "disc.iso"],
           Event.stdout "Detected audio codec: ac3\n",
           Event.stdout "\n",
           Event.stdout "Remuxing file...\n",
           Event.exec "ffmpeg"
             ["-hide_banner", "-f", "dvdvideo", "-preindex", "True", "-title", "1",
              "-chapter_start", "2", "-chapter_end", "1", "-i", "disc.iso", "-map", "0", "-c",
              "copy", "-c:a", "copy", "output.mkv"],
           Event.stdout "Process finished.\n"] } :=
  ⟨fun _ => rfl, fun _ => rfl, by decide⟩

/-- C4 at the failing input: "3abc" typed at the "Title number" prompt is not
a decimal integer, yet `fmt.Sscanf` with `%d` stores 3 and stops at the "a",
the check `opts.title <= 0` passes, and the session does not end in `fatal`:
it runs ffmpeg on title 3 and returns. -/
theorem C4_trailing_characters_accepted :
    listStage demoEnv options.zero typedWorld =
      .ok discOpts (listStage demoEnv options.zero typedWorld).world ∧
    prompt "Title number" false (listStage demoEnv options.zero typedWorld).world =
      .ok "3abc" (prompt "Title number" false
        (listStage demoEnv options.zero typedWorld).world).world ∧
    fmt.Sscanf_d "3abc" 0 = 3 ∧
    iteration demoEnv options.zero typedWorld =
      .done (iteration demoEnv options.zero typedWorld).world ∧
    ffmpegRuns (iteration demoEnv options.zero typedWorld).world.trace =
      [["-hide_banner", "-f", "dvdvideo", "-preindex", "True", "-title", "3",
        "-chapter_start", "2", "-chapter_end", "1", "-i", "disc.iso", "-map", "0", "-c", "copy",
        "-c:a", "copy", "output.mkv"]] := by
  decide

/-- C5 at the failing input: with the non-interactive flag, an input path, a
title and the first chapter "0", and with the start time, the end time and the
output filename all missing, the session does not end in `fatal`: it runs
ffmpeg with "-ss" "00:00:00", without "-to", into "output.mkv", and `main`
returns. -/
theorem C5_missing_values_not_fatal :
    bareTimeOpts.nonInteractive = true ∧ bareTimeOpts.inputPath = "disc.iso" ∧
    bareTimeOpts.title = 1 ∧ bareTimeOpts.chapterStart = "0" ∧
    bareTimeOpts.startTime = "" ∧ bareTimeOpts.endTime = "" ∧ bareTimeOpts.outputFile = "" ∧
    main demoEnv bareTimeOpts [] 1 emptyWorld =
      some (.done (iteration demoEnv bareTimeOpts (emptyWorld.log headerEvents)).world) ∧
    iteration demoEnv bareTimeOpts emptyWorld =
      .done (iteration demoEnv bareTimeOpts emptyWorld).world ∧
    ffmpegRuns (iteration demoEnv bareTimeOpts emptyWorld).world.trace =
      [["-hide_banner", "-f", "dvdvideo", "-preindex", "True", "-title", "1", "-ss",
        "00:00:00", "-i", "disc.iso", "-map", "0", "-c", "copy", "-c:a", "copy",
        "output.mkv"]] := by
  decide

theorem inputStage_withTimes (env : Env) (o : options) (st et : String) (w : World) :
    inputStage env (o.withTimes st et) w =
      (inputStage env o w).mapValue (fun o1 => o1.withTimes st et) := by
  rw [inputStage_eq, inputStage_eq]
  simp only [options.withTimes]
  split_ifs <;> rfl

theorem titleStage_withTimes (o : options) (st et : String) (w : World) :
    titleStage (o.withTimes st et) w =
      (titleStage o w).mapValue (fun o1 => o1.withTimes st et) := by
  rw [titleStage_eq, titleStage_eq]
  simp only [options.withTimes]
  split_ifs <;> rfl

theorem chapterStartStage_withTimes (o : options) (st et : String) (w : World) :
    chapterStartStage (o.withTimes st et) w =
      (chapterStartStage o w).mapValue (fun o1 => o1.withTimes st et) := by
  rw [chapterStartStage_eq, chapterStartStage_eq]
  simp only [options.withTimes]
  split_ifs <;> rfl

theorem chapterStage_withTimes (o : options) (st et : String) (w : World) :
    chapterStage (o.withTimes st et) w =
      (chapterStage o w).mapValue (fun s => s.withTimes st et) := by
  rw [chapterStage_eq, chapterStage_eq]
  simp only [options.withTimes]
  split_ifs <;> rfl

theorem inputStage_withChapterEnd (env : Env) (o : options) (ce : Int) (w : World) :
    inputStage env (o.withChapterEnd ce) w =
      (inputStage env o w).mapValue (fun o1 => o1.withChapterEnd ce) := by
  rw [inputStage_eq, inputStage_eq]
  simp only [options.withChapterEnd]
  split_ifs <;> rfl

theorem titleStage_withChapterEnd (o : options) (ce : Int) (w : World) :
    titleStage (o.withChapterEnd ce) w =
      (titleStage o w).mapValue (fun o1 => o1.withChapterEnd ce) := by
  rw [titleStage_eq, titleStage_eq]
  simp only [options.withChapterEnd]
  split_ifs <;> rfl

theorem chapterStartStage_withChapterEnd (o : options) (ce : Int) (w : World) :
    chapterStartStage (o.withChapterEnd ce) w =
      (chapterStartStage o w).mapValue (fun o1 => o1.withChapterEnd ce) := by
  rw [chapterStartStage_eq, chapterStartStage_eq]
  simp only [options.withChapterEnd]
  split_ifs <;> rfl

theorem timeRange_withChapterEnd (env : Env) (o : options) (ce : Int) (w : World)
    (hu : useTimeOf o.chapterStart = true) :
    rangeStage env (o.withChapterEnd ce) w =
      (rangeStage env o w).mapValue (fun s => s.withChapterEnd ce) := by
  rw [rangeStage_eq, rangeStage_eq]
  simp only [options.withChapterEnd, hu, if_true]
  rfl

theorem chapterRange_withTimes (env : Env) (o : options) (st et : String) (w : World)
    (hu : useTimeOf o.chapterStart = false) :
    rangeStage env (o.withTimes st et) w =
      (rangeStage env o w).mapValue (fun s => s.withTimes st et) := by
  rw [rangeStage_eq, rangeStage_eq]
  have h := chapterStage_withTimes o st et w
  simp only [options.withTimes] at h ⊢
  simp only [hu, Bool.false_eq_true, if_false]
  exact h

/-- A change of the options that the steps before the range selection carry
along unchanged is carried along by lines 49-79. -/
theorem upToChapterStart_frame (env : Env) (U : options → options)
    (hI : ∀ o w, inputStage env (U o) w = (inputStage env o w).mapValue U)
    (hT : ∀ o w, titleStage (U o) w = (titleStage o w).mapValue U)
    (hC : ∀ o w, chapterStartStage (U o) w = (chapterStartStage o w).mapValue U)
    (hp : ∀ o, (U o).inputPath = o.inputPath) (hl : ∀ o, (U o).listOnly = o.listOnly)
    (opts : options) (w : World) :
    upToChapterStart env (U opts) w = (upToChapterStart env opts w).mapValue U := by
  simp only [upToChapterStart, upToTitle, listStage, bind_apply, hI]
  cases inputStage env opts w with
  | fatal m w1 => rfl
  | done w1 => rfl
  | ok o1 w1 =>
    simp only [Res.mapValue, hp, hl]
    cases printTitleList env o1.inputPath w1 with
    | fatal m w2 => rfl
    | done w2 => rfl
    | ok u w2 =>
      simp only
      cases o1.listOnly with
      | true => rfl
      | false =>
        simp only [Bool.false_eq_true, if_false, pure_apply, hT]
        cases titleStage o1 w2 with
        | fatal m w3 => rfl
        | done w3 => rfl
        | ok o2 w3 =>
          simp only [Res.mapValue, hC]

theorem upToChapterStart_withTimes (env : Env) (opts : options) (st et : String) (w : World) :
    upToChapterStart env (opts.withTimes st et) w =
      (upToChapterStart env opts w).mapValue (fun o => o.withTimes st et) :=
  upToChapterStart_frame env (fun o => o.withTimes st et)
    (fun o w => inputStage_withTimes env o st et w) (fun o w => titleStage_withTimes o st et w)
    (fun o w => chapterStartStage_withTimes o st et w) (fun _ => rfl) (fun _ => rfl) opts w

theorem upToChapterStart_withChapterEnd (env : Env) (opts : options) (ce : Int) (w : World) :
    upToChapterStart env (opts.withChapterEnd ce) w =
      (upToChapterStart env opts w).mapValue (fun o => o.withChapterEnd ce) :=
  upToChapterStart_frame env (fun o => o.withChapterEnd ce)
    (fun o w => inputStage_withChapterEnd env o ce w)
    (fun o w => titleStage_withChapterEnd o ce w)
    (fun o w => chapterStartStage_withChapterEnd o ce w) (fun _ => rfl) (fun _ => rfl) opts w

/-- In chapter mode the session gathered does not depend on the start and
end times the iteration started with. -/
theorem gather_withTimes {env : Env} {opts : options} {s : Session} {w w1 : World}
    (hg : gather env opts w = .ok s w1) (hu : s.useTime = false) (st et : String) :
    gather env (opts.withTimes st et) w = .ok (s.withTimes st et) w1 := by
  obtain ⟨s5, w5, h5, rfl, rfl, -⟩ := gather_ok hg
  obtain ⟨o, w4, h4, hr, -⟩ := upToRange_ok h5
  have hm : useTimeOf o.chapterStart = false := by
    rw [← (rangeStage_ok hr).1]; exact hu
  have hC := upToChapterStart_withTimes env opts st et w
  rw [h4] at hC
  have hR := chapterRange_withTimes env o st et w4 hm
  rw [hr] at hR
  have hU : upToRange env (opts.withTimes st et) w = .ok (s5.withTimes st et) w5 := by
    simp only [upToRange, bind_apply, hC, Res.mapValue]
    exact hR
  rw [gather_eq_of_range hU]
  rfl

/-- In time mode the session gathered does not depend on the last chapter
the iteration started with. -/
theorem gather_withChapterEnd {env : Env} {opts : options} {s : Session} {w w1 : World}
    (hg : gather env opts w = .ok s w1) (hu : s.useTime = true) (ce : Int) :
    gather env (opts.withChapterEnd ce) w = .ok (s.withChapterEnd ce) w1 := by
  obtain ⟨s5, w5, h5, rfl, rfl, -⟩ := gather_ok hg
  obtain ⟨o, w4, h4, hr, -⟩ := upToRange_ok h5
  have hm : useTimeOf o.chapterStart = true := by
    rw [← (rangeStage_ok hr).1]; exact hu
  have hC := upToChapterStart_withChapterEnd env opts ce w
  rw [h4] at hC
  have hR := timeRange_withChapterEnd env o ce w4 hm
  rw [hr] at hR
  have hU : upToRange env (opts.withChapterEnd ce) w = .ok (s5.withChapterEnd ce) w5 := by
    simp only [upToRange, bind_apply, hC, Res.mapValue]
    exact hR
  rw [gather_eq_of_range hU]
  rfl

theorem ffmpegArgs_withTimes (ext : Char → Char) (s : Session) (st et c : String)
    (hu : s.useTime = false) : ffmpegArgs ext (s.withTimes st et) c = ffmpegArgs ext s c := by
  simp [ffmpegArgs, rangeArgs, Session.withTimes, options.withTimes, hu]

theorem ffmpegArgs_withChapterEnd (ext : Char → Char) (s : Session) (ce : Int) (c : String)
    (hu : s.useTime = true) : ffmpegArgs ext (s.withChapterEnd ce) c = ffmpegArgs ext s c := by
  simp [ffmpegArgs, rangeArgs, Session.withChapterEnd, options.withChapterEnd, hu]

/-- What follows the composition of the arguments depends on the session only
through the input path, the title, the prompt flag and the arguments. -/
theorem iteration_congr {env : Env} {opts opts1 : options} {s s1 : Session} {w w1 : World}
    (hg : gather env opts w = .ok s w1) (hg1 : gather env opts1 w = .ok s1 w1)
    (hp : s1.opts.inputPath = s.opts.inputPath) (ht : s1.opts.title = s.opts.title)
    (hn : s1.opts.nonInteractive = s.opts.nonInteractive)
    (ha : ∀ c, ffmpegArgs env.lowerExt s1 c = ffmpegArgs env.lowerExt s c) :
    iteration env opts1 w = iteration env opts w := by
  simp only [iteration, bind_apply, hg, hg1]
  have hA : audioStage env s1 w1 = audioStage env s w1 := by
    simp only [audioStage, hp, ht]
  rw [hA]
  cases audioStage env s w1 with
  | fatal m w2 => rfl
  | done w2 => rfl
  | ok c w2 =>
    simp only [ha]
    cases remuxStage env (ffmpegArgs env.lowerExt s c) w2 with
    | fatal m w3 => rfl
    | done w3 => rfl
    | ok u w3 =>
      simp only [continueStage, hn]

/-- Positive first and last chapters pass the chapter branch whatever their
order. -/
theorem gather_of_chapters {env : Env} {opts o : options} {w w4 : World} (a b : Int)
    (h4 : upToChapterStart env opts w = .ok o w4) (hu : useTimeOf o.chapterStart = false)
    (ha : fmt.Sscanf_d o.chapterStart 0 = a)
    (hb : o.chapterEnd = b ∨ (o.chapterEnd = 0 ∧ answer o.nonInteractive w4 ≠ "" ∧
      fmt.Sscanf_d (answer o.nonInteractive w4) 0 = b))
    (h0 : 0 < a) (h1 : 0 < b) :
    ∃ s w1, gather env opts w = .ok s w1 ∧ s.useTime = false ∧ s.chapterStartInt = a ∧
      s.opts.chapterEnd = b := by
  have hr : ∃ s w5, rangeStage env o w4 = .ok s w5 ∧ s.useTime = false ∧
      s.chapterStartInt = a ∧ s.opts.chapterEnd = b := by
    rw [rangeStage_eq, hu, chapterStage_eq, ha]
    simp only [Bool.false_eq_true, if_false]
    rw [if_neg (by omega)]
    rcases hb with hb | ⟨hz, hne, hb⟩
    · rw [if_neg (by omega), if_neg (by omega)]
      exact ⟨_, _, rfl, rfl, rfl, hb⟩
    · rw [if_pos hz, if_neg hne, hb, if_neg (by omega)]
      exact ⟨_, _, rfl, rfl, rfl, rfl⟩
  obtain ⟨s, w5, hr, h2, h3, h5⟩ := hr
  have hR : upToRange env opts w = .ok s w5 := by
    simp only [upToRange, bind_apply, h4]
    exact hr
  exact ⟨_, _, gather_eq_of_range hR, h2, h3, h5⟩

/-- C8: a chapter range is never checked for consistency: for all positive
first and last chapters (values of Go's 64-bit `int`), in either order, a
chapter-mode session passes the range step and composes "-chapter_start" and
"-chapter_end" with the two numbers as given, and this list is the one the
ffmpeg run of the iteration gets; in chapter mode the composed
list (and the whole iteration) does not depend on the start and end times, in
time mode not on the last chapter. -/
theorem C8_range_not_validated (env : Env) :
    (∀ a b : Int, 0 < a → a < 2 ^ 63 → 0 < b →
      fmt.Sscanf_d (fmt.Sprintf_d a) 0 = a ∧ useTimeOf (fmt.Sprintf_d a) = false ∧
      ∀ opts w o w4, upToChapterStart env opts w = .ok o w4 →
        useTimeOf o.chapterStart = false → fmt.Sscanf_d o.chapterStart 0 = a →
        (o.chapterEnd = b ∨ (o.chapterEnd = 0 ∧ answer o.nonInteractive w4 ≠ "" ∧
          fmt.Sscanf_d (answer o.nonInteractive w4) 0 = b)) →
        ∃ s w1, gather env opts w = .ok s w1 ∧ s.useTime = false ∧
          rangeArgs s = ["-chapter_start", fmt.Sprintf_d a, "-chapter_end", fmt.Sprintf_d b] ∧
          (∀ c, ffmpegArgs env.lowerExt s c =
            ["-hide_banner", "-f", "dvdvideo", "-preindex", "True", "-title",
              fmt.Sprintf_d s.opts.title] ++
            ["-chapter_start", fmt.Sprintf_d a, "-chapter_end", fmt.Sprintf_d b] ++
            ["-i", s.opts.inputPath, "-map", "0", "-c", "copy"] ++ audioArgs env.lowerExt c ++
            [s.opts.outputFile]) ∧
          ∀ c w2, audioStage env s w1 = .ok c w2 →
            ffmpegRuns (iteration env opts w).world.trace =
              ffmpegRuns w.trace ++ [ffmpegArgs env.lowerExt s c]) ∧
    (∀ opts w s w1, gather env opts w = .ok s w1 → s.useTime = false → ∀ st et,
      gather env (opts.withTimes st et) w = .ok (s.withTimes st et) w1 ∧
      (∀ c, ffmpegArgs env.lowerExt (s.withTimes st et) c = ffmpegArgs env.lowerExt s c) ∧
      iteration env (opts.withTimes st et) w = iteration env opts w) ∧
    (∀ opts w s w1, gather env opts w = .ok s w1 → s.useTime = true → ∀ ce,
      gather env (opts.withChapterEnd ce) w = .ok (s.withChapterEnd ce) w1 ∧
      (∀ c, ffmpegArgs env.lowerExt (s.withChapterEnd ce) c = ffmpegArgs env.lowerExt s c) ∧
      iteration env (opts.withChapterEnd ce) w = iteration env opts w) := by
  refine ⟨?_, ?_, ?_⟩
  · intro a b h0 h1 hb0
    refine ⟨Sscanf_Sprintf a 0 h0 h1, useTimeOf_Sprintf a h0 h1, ?_⟩
    intro opts w o w4 h4 hu ha hb
    obtain ⟨s, w1, hg, h2, h3, h5⟩ := gather_of_chapters a b h4 hu ha hb h0 hb0
    have hrange : rangeArgs s =
        ["-chapter_start", fmt.Sprintf_d a, "-chapter_end", fmt.Sprintf_d b] := by
      unfold rangeArgs
      simp [h2, h3, h5]
    refine ⟨s, w1, hg, h2, hrange, fun c => ?_, fun c w2 ha2 => iteration_run hg ha2⟩
    rw [ffmpegArgs_eq, hrange]
  · intro opts w s w1 hg hu st et
    have hg1 := gather_withTimes hg hu st et
    have hargs := fun c => ffmpegArgs_withTimes env.lowerExt s st et c hu
    exact ⟨hg1, hargs, iteration_congr hg hg1 rfl rfl rfl hargs⟩
  · intro opts w s w1 hg hu ce
    have hg1 := gather_withChapterEnd hg hu ce
    have hargs := fun c => ffmpegArgs_withChapterEnd env.lowerExt s ce c hu
    exact ⟨hg1, hargs, iteration_congr hg hg1 rfl rfl rfl hargs⟩

/-- C8 at a concrete session: first chapter 2, last chapter 1. -/
theorem C8_range_not_validated_witness :
    (∃ s w1, gather demoEnv batchOpts emptyWorld = .ok s w1 ∧ s.useTime = false ∧
      rangeArgs s = ["-chapter_start", fmt.Sprintf_d 2, "-chapter_end", fmt.Sprintf_d 1] ∧
      (∀ c, ffmpegArgs demoEnv.lowerExt s c =
        ["-hide_banner", "-f", "dvdvideo", "-preindex", "True", "-title",
          fmt.Sprintf_d s.opts.title] ++
        ["-chapter_start", fmt.Sprintf_d 2, "-chapter_end", fmt.Sprintf_d 1] ++
        ["-i", s.opts.inputPath, "-map", "0", "-c", "copy"] ++ audioArgs demoEnv.lowerExt c ++
        [s.opts.outputFile]) ∧
      ∀ c w2, audioStage demoEnv s w1 = .ok c w2 →
        ffmpegRuns (iteration demoEnv batchOpts emptyWorld).world.trace =
          ffmpegRuns emptyWorld.trace ++ [ffmpegArgs demoEnv.lowerExt s c]) ∧
    iteration demoEnv (batchOpts.withTimes "0:01:00" "0:02:00") emptyWorld =
      iteration demoEnv batchOpts emptyWorld ∧
    iteration demoEnv (timeOpts.withChapterEnd 7) emptyWorld =
      iteration demoEnv timeOpts emptyWorld :=
  ⟨((C8_range_not_validated demoEnv).1 2 1 (by decide) (by decide) (by decide)).2.2
      batchOpts emptyWorld batchOpts (upToChapterStart demoEnv batchOpts emptyWorld).world
      (by decide) (by decide) (by decide) (Or.inl (by decide)),
   ((C8_range_not_validated demoEnv).2.1 batchOpts emptyWorld batchSession
      (gather demoEnv batchOpts emptyWorld).world (by decide) (by decide)
      "0:01:00" "0:02:00").2.2,
   ((C8_range_not_validated demoEnv).2.2 timeOpts emptyWorld timeSession
      (gather demoEnv timeOpts emptyWorld).world (by decide) (by decide) 7).2.2⟩

/-- C9 (as amended): in time mode the arguments hold "-ss" followed by a
non-empty value, the normalised start time, which is "00:00:00" when the
lower-cased, trimmed input is "", "0", "first" or "start" and the input itself
otherwise; "-to" with the end time unchanged follows the "-ss" value exactly
when the normalised end time is not empty, that is when the lower-cased,
trimmed end time is none of "", "last", "end"; as an element of the list "-to"
is present exactly then provided the start time and the input path do not
themselves spell "-to"; both normalisers are idempotent.  The start time
normalised is the flag, or else the first-chapter value when that is not "0",
or else what `prompt` returns for "Start time (-ss)"; the end time is the flag
or else what `prompt` returns for "End time (-to)" right after; and the list
is the one the ffmpeg run of the iteration gets. -/
theorem C9_time_normalisation (env : Env) :
    (∀ x,
      ((strings.TrimSpace (strings.ToLower env.lowerExt x) = "" ∨
        strings.TrimSpace (strings.ToLower env.lowerExt x) = "0" ∨
        strings.TrimSpace (strings.ToLower env.lowerExt x) = "first" ∨
        strings.TrimSpace (strings.ToLower env.lowerExt x) = "start") →
          normalizeStartTime env.lowerExt x = "00:00:00") ∧
      (¬ (strings.TrimSpace (strings.ToLower env.lowerExt x) = "" ∨
          strings.TrimSpace (strings.ToLower env.lowerExt x) = "0" ∨
          strings.TrimSpace (strings.ToLower env.lowerExt x) = "first" ∨
          strings.TrimSpace (strings.ToLower env.lowerExt x) = "start") →
          normalizeStartTime env.lowerExt x = x) ∧
      normalizeStartTime env.lowerExt x ≠ "" ∧
      normalizeStartTime env.lowerExt (normalizeStartTime env.lowerExt x) =
        normalizeStartTime env.lowerExt x) ∧
    (∀ y,
      (normalizeEndTime env.lowerExt y ≠ "" ↔
        ¬ (strings.TrimSpace (strings.ToLower env.lowerExt y) = "" ∨
           strings.TrimSpace (strings.ToLower env.lowerExt y) = "last" ∨
           strings.TrimSpace (strings.ToLower env.lowerExt y) = "end")) ∧
      (normalizeEndTime env.lowerExt y ≠ "" → normalizeEndTime env.lowerExt y = y) ∧
      normalizeEndTime env.lowerExt (normalizeEndTime env.lowerExt y) =
        normalizeEndTime env.lowerExt y) ∧
    ((∀ c, unicode.IsSpace (unicode.ToLower env.lowerExt c) = unicode.IsSpace c) →
      ∀ x, strings.TrimSpace (strings.ToLower env.lowerExt x) =
        strings.ToLower env.lowerExt (strings.TrimSpace x)) ∧
    (∀ opts w o w4, upToChapterStart env opts w = .ok o w4 → useTimeOf o.chapterStart = true →
      ∃ x wA y w5,
        (opts.startTime ≠ "" → x = opts.startTime ∧ wA = w4) ∧
        (opts.startTime = "" → o.chapterStart ≠ "0" → x = o.chapterStart ∧ wA = w4) ∧
        (opts.startTime = "" → o.chapterStart = "0" →
          prompt "Start time (-ss)" opts.nonInteractive w4 = .ok x wA) ∧
        (opts.endTime ≠ "" → y = opts.endTime ∧ w5 = wA) ∧
        (opts.endTime = "" → prompt "End time (-to)" opts.nonInteractive wA = .ok y w5) ∧
        ∃ s w1, gather env opts w = .ok s w1 ∧ s.useTime = true ∧
          s.opts.startTime = normalizeStartTime env.lowerExt x ∧
          s.opts.endTime = normalizeEndTime env.lowerExt y ∧
          (∀ c, ffmpegArgs env.lowerExt s c =
            ["-hide_banner", "-f", "dvdvideo", "-preindex", "True", "-title",
              fmt.Sprintf_d s.opts.title] ++
            ["-ss", normalizeStartTime env.lowerExt x] ++
            (if normalizeEndTime env.lowerExt y ≠ "" then ["-to", y] else []) ++
            ["-i", s.opts.inputPath, "-map", "0", "-c", "copy"] ++ audioArgs env.lowerExt c ++
            [s.opts.outputFile]) ∧
          (∀ c, normalizeStartTime env.lowerExt x ≠ "-to" → s.opts.inputPath ≠ "-to" →
            ("-to" ∈ ffmpegArgs env.lowerExt s c ↔ normalizeEndTime env.lowerExt y ≠ "")) ∧
          (∀ c w2, audioStage env s w1 = .ok c w2 →
            ffmpegRuns (iteration env opts w).world.trace =
              ffmpegRuns w.trace ++ [ffmpegArgs env.lowerExt s c])) := by
  refine ⟨fun x => ⟨?_, ?_, normalizeStartTime_ne _ x, normalizeStartTime_idem _ x⟩,
    fun y => ⟨normalizeEndTime_ne_iff _ y, ?_, normalizeEndTime_idem _ y⟩,
    TrimSpace_ToLower_comm env.lowerExt, ?_⟩
  · intro h
    unfold normalizeStartTime
    simp only [h, if_true]
  · intro h
    unfold normalizeStartTime
    simp only [h, if_false]
  · intro h
    unfold normalizeEndTime at h ⊢
    simp only at h ⊢
    split_ifs at h ⊢ with hc
    · exact absurd rfl h
    · rfl
  · intro opts w o w4 h4 hu
    obtain ⟨ip, t, cs, ho, -⟩ := upToChapterStart_shape h4
    have e1 : o.startTime = opts.startTime := by rw [ho]
    have e2 : o.endTime = opts.endTime := by rw [ho]
    have e3 : o.nonInteractive = opts.nonInteractive := by rw [ho]
    clear ho
    have hR : upToRange env opts w =
        .ok { opts := { o with startTime := normalizeStartTime env.lowerExt (rawStart o w4),
                               endTime := normalizeEndTime env.lowerExt (rawEnd o w4) },
              useTime := true, chapterStartInt := 0 } (afterTime o w4) := by
      simp only [upToRange, bind_apply, h4]
      rw [rangeStage_eq, if_pos hu]
    have hg := gather_eq_of_range hR
    have hT := Sprintf_d_ne_option o.title
    have hO := outputName_ne_option env.lowerExt
      (rawOutput { o with startTime := normalizeStartTime env.lowerExt (rawStart o w4),
                          endTime := normalizeEndTime env.lowerExt (rawEnd o w4) }
        (afterTime o w4))
    have hA := fun c => audioArgs_mem env.lowerExt c
    have hyy : normalizeEndTime env.lowerExt (rawEnd o w4) ≠ "" →
        normalizeEndTime env.lowerExt (rawEnd o w4) = rawEnd o w4 := by
      intro h
      unfold normalizeEndTime at h ⊢
      simp only at h ⊢
      split_ifs at h ⊢ with hc
      · exact absurd rfl h
      · rfl
    refine ⟨rawStart o w4, afterStart o w4, rawEnd o w4, afterTime o w4, ?_, ?_, ?_, ?_, ?_,
      _, _, hg, rfl, rfl, rfl, ?_, ?_, fun c w2 ha => iteration_run hg ha⟩
    · intro hne
      rw [← e1] at hne ⊢
      simp [rawStart, afterStart, hne]
    · intro he hc
      rw [← e1] at he
      simp [rawStart, afterStart, he, hc]
    · intro he hc
      rw [← e1] at he
      rw [prompt_eq, ← e3]
      simp [rawStart, afterStart, he, hc]
    · intro hne
      rw [← e2] at hne ⊢
      simp [rawEnd, afterTime, hne]
    · intro he
      rw [← e2] at he
      rw [prompt_eq, ← e3]
      simp [rawEnd, afterTime, he]
    · intro c
      unfold ffmpegArgs rangeArgs
      by_cases he : normalizeEndTime env.lowerExt (rawEnd o w4) = ""
      · simp [he]
      · have hy0 : rawEnd o w4 ≠ "" := by
          intro h0
          apply he
          rw [← hyy he] at h0
          exact h0
        simp [he, hyy he, hy0]
    · intro c h1 h3
      rw [ffmpegArgs_eq]
      unfold rangeArgs
      by_cases he : normalizeEndTime env.lowerExt (rawEnd o w4) = ""
      · simp only [if_true, he, ne_eq, not_true_eq_false, if_false, iff_false]
        intro hm
        simp at hm
        rcases hm with hm | hm | hm | hm | hm
        · exact hT.2.1 hm.symm
        · exact h1 hm.symm
        · exact h3 hm.symm
        · exact (hA c _ hm).2.1 rfl
        · exact hO.2.1 hm.symm
      · simp [he]

/-- C9 (as amended) at a concrete session: the user types " Start" and
"0:10:00" at the two prompts. -/
theorem C9_time_normalisation_witness :
    normalizeStartTime demoEnv.lowerExt " First " = "00:00:00" ∧
    ∃ s w1, gather demoEnv askTimeOpts askTimeWorld = .ok s w1 ∧
      ffmpegArgs demoEnv.lowerExt s "ac3" =
        ["-hide_banner", "-f", "dvdvideo", "-preindex", "True", "-title", "1", "-ss",
         "00:00:00", "-to", "0:10:00", "-i", "disc.iso", "-map", "0", "-c", "copy", "-c:a",
         "copy", "film.mkv"] :=
  ⟨((C9_time_normalisation demoEnv).1 " First ").1 (by decide),
   by
    obtain ⟨x, wA, y, w5, -, -, p3, -, p5, s, w1, hg, -, -, -, hargs, -, -⟩ :=
      (C9_time_normalisation demoEnv).2.2.2 askTimeOpts askTimeWorld askTimeOpts
        (upToChapterStart demoEnv askTimeOpts askTimeWorld).world (by decide) (by decide)
    have h3 := p3 rfl rfl
    have hv : prompt "Start time (-ss)" askTimeOpts.nonInteractive
        (upToChapterStart demoEnv askTimeOpts askTimeWorld).world =
        .ok "Start" (prompt "Start time (-ss)" false
          (upToChapterStart demoEnv askTimeOpts askTimeWorld).world).world := by decide
    rw [hv] at h3
    simp only [Res.ok.injEq] at h3
    obtain ⟨rfl, rfl⟩ := h3
    have h5 := p5 rfl
    have hv2 : prompt "End time (-to)" askTimeOpts.nonInteractive
        (prompt "Start time (-ss)" false
          (upToChapterStart demoEnv askTimeOpts askTimeWorld).world).world =
        .ok "0:10:00" (upToRange demoEnv askTimeOpts askTimeWorld).world := by decide
    rw [hv2] at h5
    simp only [Res.ok.injEq] at h5
    obtain ⟨rfl, rfl⟩ := h5
    have hs : gather demoEnv askTimeOpts askTimeWorld =
        .ok { opts := { askTimeOpts with startTime := "00:00:00", endTime := "0:10:00" },
              useTime := true, chapterStartInt := 0 }
          (gather demoEnv askTimeOpts askTimeWorld).world := by decide
    rw [hs] at hg
    simp only [Res.ok.injEq] at hg
    obtain ⟨rfl, rfl⟩ := hg
    exact ⟨_, _, hs, (hargs "ac3").trans (by decide)⟩⟩

/-- C9 as stated fails: in time mode with the start time "-to" and no end
time, the normalised end time is empty and still "-to" is present in the
argument list of the ffmpeg run, as the value of "-ss". -/
theorem C9_counterexample :
    useTimeOf toSlipOpts.chapterStart = true ∧
    normalizeEndTime demoEnv.lowerExt toSlipOpts.endTime = "" ∧
    ffmpegRuns (iteration demoEnv toSlipOpts emptyWorld).world.trace =
      [["-hide_banner", "-f", "dvdvideo", "-preindex", "True", "-title", "1", "-ss", "-to",
        "-i", "disc.iso", "-map", "0", "-c", "copy", "-c:a", "copy", "output.mkv"]] ∧
    ∃ args ∈ ffmpegRuns (iteration demoEnv toSlipOpts emptyWorld).world.trace,
      "-to" ∈ args := by
  decide

end Dvdoll
